import Mathlib

/-! junction: validation and dispatch.

A shallow embedding of `junction.go` and `err.go`. The package works on
`interface{}` values through Go's `reflect` library, so the embedding has a
small universe of Go types (`GoType`), run-time data (`Data`) and typed values
(`TVal`), and models the `reflect` operations the package calls together with
the panics they raise. A computation that may panic lives in `Except Panic`.
-/

namespace Junction

/-! ## Go types as seen through `reflect.Type` -/

/-- The `reflect.Kind` of a type (the kinds the embedding distinguishes). -/
inductive Kind
  | Invalid | Bool | Int | String | Array | Chan | Func | Interface | Map | Ptr | Slice | Struct
  deriving DecidableEq, Repr

/-- Direction of a channel type (`reflect.ChanDir`). -/
inductive ChanDir
  | RecvDir | SendDir | BothDir
  deriving DecidableEq, Repr

mutual
/-- Go types. Two types are identical exactly when the terms are equal: a
defined type is identified by its qualified name, a struct or interface literal by
its canonical text. -/
inductive GoType
  | bool
  | int
  | string
  | struct (descr : String)
  | iface (descr : String)
  | array (len : Nat) (elem : GoType)
  | chan (dir : ChanDir) (elem : GoType)
  | map (key elem : GoType)
  | ptr (elem : GoType)
  | slice (elem : GoType)
  | func (ins outs : GoTypes) (variadic : Bool)
  | named (name : String) (underlying : GoType)
  deriving DecidableEq
/-- Parameter and result lists of a function type. -/
inductive GoTypes
  | nil
  | cons (hd : GoType) (tl : GoTypes)
  deriving DecidableEq
end

/-- The list of types in a parameter or result list. -/
def GoTypes.toList : GoTypes → List GoType
  | .nil => []
  | .cons t ts => t :: ts.toList

/-- Build a parameter or result list from a list of types. -/
def GoTypes.ofList : List GoType → GoTypes
  | [] => .nil
  | t :: ts => .cons t (GoTypes.ofList ts)

/-- The package's error type, `type Error string` of `err.go`. -/
structure Error where
  text : String
  deriving DecidableEq, Repr

/-- The method `Error.Error`: the error's text. -/
def Error.Error (e : Error) : String := e.text

instance instDecidableEqExcept {ε α : Type} [DecidableEq ε] [DecidableEq α] :
    DecidableEq (Except ε α)
  | .ok a, .ok b =>
    if h : a = b then isTrue (by rw [h]) else isFalse (by intro h2; cases h2; exact h rfl)
  | .error a, .error b =>
    if h : a = b then isTrue (by rw [h]) else isFalse (by intro h2; cases h2; exact h rfl)
  | .ok _, .error _ => isFalse (by intro h; cases h)
  | .error _, .ok _ => isFalse (by intro h; cases h)

/-- How a goroutine fails to go on: a panic with an `error` value handed to
`panic`, a panic with a message (a string handed to `panic`, or a run-time or
`reflect` failure), or blocking for ever. -/
inductive Panic
  | ofError (e : Error)
  | ofString (s : String)
  | blocked
  deriving DecidableEq, Repr

/-- `Kind.String()`. -/
def kindString : Kind → String
  | .Invalid => "invalid"
  | .Bool => "bool"
  | .Int => "int"
  | .String => "string"
  | .Array => "array"
  | .Chan => "chan"
  | .Func => "func"
  | .Interface => "interface"
  | .Map => "map"
  | .Ptr => "ptr"
  | .Slice => "slice"
  | .Struct => "struct"

/-- `Type.Kind()`. -/
def GoType.Kind : GoType → Kind
  | .bool => .Bool
  | .int => .Int
  | .string => .String
  | .struct _ => .Struct
  | .iface _ => .Interface
  | .array _ _ => .Array
  | .chan _ _ => .Chan
  | .map _ _ => .Map
  | .ptr _ => .Ptr
  | .slice _ => .Slice
  | .func _ _ _ => .Func
  | .named _ u => u.Kind

mutual
/-- `Type.String()`. -/
def GoType.String : GoType → String
  | .bool => "bool"
  | .int => "int"
  | .string => "string"
  | .struct d => d
  | .iface d => d
  | .array n e => "[" ++ toString n ++ "]" ++ e.String
  | .chan .BothDir e => "chan " ++ e.String
  | .chan .RecvDir e => "<-chan " ++ e.String
  | .chan .SendDir e => "chan<- " ++ e.String
  | .map k e => "map[" ++ k.String ++ "]" ++ e.String
  | .ptr e => "*" ++ e.String
  | .slice e => "[]" ++ e.String
  | .func i o v => "func(" ++ i.paramString v ++ ")" ++ o.resultString
  | .named n _ => n
/-- Comma-separated `Type.String()` of a parameter or result list. -/
def GoTypes.String : GoTypes → String
  | .nil => ""
  | .cons t .nil => t.String
  | .cons t ts => t.String ++ ", " ++ ts.String
/-- The parameter list of a function type as `Type.String()` prints it: the
last parameter of a variadic function, of slice type `[]T`, is printed `...T`. -/
def GoTypes.paramString : GoTypes → Bool → String
  | .nil, _ => ""
  | .cons t .nil, false => t.String
  | .cons (.slice e) .nil, true => "..." ++ e.String
  | .cons t .nil, true => "..." ++ t.String
  | .cons t ts, v => t.String ++ ", " ++ ts.paramString v
/-- The result list of a function type as `Type.String()` prints it: nothing
for no result, the type for one result, the parenthesised list for more. -/
def GoTypes.resultString : GoTypes → String
  | .nil => ""
  | .cons t .nil => " " ++ t.String
  | .cons t (.cons t2 ts) => " (" ++ t.String ++ ", " ++ (GoTypes.cons t2 ts).String ++ ")"
end

/-- The element type of an array, channel, map, pointer or slice type, looking
through a defined type to its underlying type. -/
def GoType.elem? : GoType → Option GoType
  | .array _ e => some e
  | .chan _ e => some e
  | .map _ e => some e
  | .ptr e => some e
  | .slice e => some e
  | .named _ u => u.elem?
  | _ => none

/-- `Type.Elem()`: the element type of an array, channel, map, pointer or
slice type; panics for every other kind. -/
def GoType.Elem (t : GoType) : Except Panic GoType :=
  match t.elem? with
  | some e => pure e
  | none => throw (.ofString ("reflect: Elem of invalid type " ++ t.String))

/-- Parameter types of a function type (empty for the other kinds, where the
`reflect` accessors panic; see `GoType.NumIn`). -/
def GoType.ins : GoType → List GoType
  | .func i _ _ => i.toList
  | .named _ u => u.ins
  | _ => []

/-- Result types of a function type. -/
def GoType.outs : GoType → List GoType
  | .func _ o _ => o.toList
  | .named _ u => u.outs
  | _ => []

/-- `Type.IsVariadic()` for a function type. -/
def GoType.IsVariadic : GoType → Bool
  | .func _ _ v => v
  | .named _ u => u.IsVariadic
  | _ => false

/-- `Type.NumIn()`: panics unless the kind is `Func`. -/
def GoType.NumIn (t : GoType) : Except Panic Nat :=
  if t.Kind = .Func then pure t.ins.length
  else throw (.ofString ("reflect: NumIn of non-func type " ++ t.String))

/-- `Type.In(i)`: panics unless the kind is `Func` and `i` is in range. -/
def GoType.In (t : GoType) (i : Nat) : Except Panic GoType :=
  if t.Kind = .Func then
    match t.ins[i]? with
    | some p => pure p
    | none => throw (.ofString "reflect: Func index out of bounds")
  else throw (.ofString ("reflect: In of non-func type " ++ t.String))

/-- `Type.NumOut()`: panics unless the kind is `Func`. -/
def GoType.NumOut (t : GoType) : Except Panic Nat :=
  if t.Kind = .Func then pure t.outs.length
  else throw (.ofString ("reflect: NumOut of non-func type " ++ t.String))

/-- `Type.Out(i)`: panics unless the kind is `Func` and `i` is in range. -/
def GoType.Out (t : GoType) (i : Nat) : Except Panic GoType :=
  if t.Kind = .Func then
    match t.outs[i]? with
    | some p => pure p
    | none => throw (.ofString "reflect: Func index out of bounds")
  else throw (.ofString ("reflect: Out of non-func type " ++ t.String))

/-- `Type.ChanDir()` of a channel type. -/
def GoType.ChanDir? : GoType → Option ChanDir
  | .chan d _ => some d
  | .named _ u => u.ChanDir?
  | _ => none

/-- The underlying type: of a defined type, that of its definition; every
other type is its own underlying type. -/
def GoType.underlying : GoType → GoType
  | .named _ u => u.underlying
  | t => t

/-- Named types: the defined types and the predeclared `bool`, `int`, `string`. -/
def GoType.isNamed : GoType → Bool
  | .named _ _ => true
  | .bool => true
  | .int => true
  | .string => true
  | _ => false

/-- `v.AssignableTo(t)`, by the rules of the language: identical types;
identical underlying types when one of the two is not named; a bidirectional
channel to a channel type with the same element type when one of the two is not
named; and a type to an interface type it implements. Method sets are declared
beside the types, so `Implements v t` (the methods of `v` include those of the
interface type `t`) is taken from the program. -/
def AssignableTo (Implements : GoType → GoType → Bool) (v t : GoType) : Bool :=
  v == t
  || (v.underlying == t.underlying && (!v.isNamed || !t.isNamed))
  || (v.Kind == .Chan && t.Kind == .Chan && v.ChanDir? == some .BothDir
      && v.elem? == t.elem? && (!v.isNamed || !t.isNamed))
  || (t.Kind == .Interface && Implements v t)

/-! ## Run-time data and `reflect.Value` -/

mutual
/-- First-order run-time data: what a variable or a channel element holds. -/
inductive Data
  | nil
  | bool (b : Bool)
  | int (i : Int)
  | str (s : String)
  | ptr (addr : Nat)
  | chan (id : Nat)
  | seq (items : DataList)
  | boxed (dyn : GoType) (d : Data)
  deriving DecidableEq
/-- The fields of a struct or the elements of an array or slice. -/
inductive DataList
  | nil
  | cons (hd : Data) (tl : DataList)
  deriving DecidableEq
end

/-- Build a field or element list from a list of data. -/
def DataList.ofList : List Data → DataList
  | [] => .nil
  | d :: ds => .cons d (DataList.ofList ds)

/-- A struct value with the given fields, in declaration order. -/
def Data.record (fields : List Data) : Data := .seq (DataList.ofList fields)

/-- Memory: the variable stored at each address. -/
abbrev Heap := Nat → Data

/-- Overwrite the variable at `addr`. -/
def Heap.store (h : Heap) (addr : Nat) (d : Data) : Heap :=
  fun a => if a = addr then d else h a

/-- The body of a Go function: from the arguments and memory to the results
and the memory it leaves, or a panic. -/
abbrev GoFunc := List Data → Heap → Except Panic (List Data × Heap)

/-- What a value holds: first-order data or a function. -/
inductive Payload
  | data (d : Data)
  | fn (f : GoFunc)

/-- A Go value together with its dynamic type. -/
structure TVal where
  typ : GoType
  val : Payload

/-- An `interface{}`: `none` is the nil interface. -/
abbrev Iface := Option TVal

/-- A `reflect.Value`: the zero Value, a value held directly, or an
addressable variable of the given type (what `Elem` of a pointer yields). -/
inductive RValue
  | zero
  | direct (v : TVal)
  | indirect (typ : GoType) (addr : Nat)

/-- `reflect.TypeOf`: the dynamic type, the nil `Type` for a nil interface. -/
def TypeOf (i : Iface) : Option GoType := i.map TVal.typ

/-- `reflect.ValueOf`: the zero Value for a nil interface. -/
def ValueOf : Iface → RValue
  | none => .zero
  | some v => .direct v

/-- A method call on a `reflect.Type` interface value: a nil interface gives the
run-time nil dereference panic. -/
def deref : Option GoType → Except Panic GoType
  | some t => pure t
  | none => throw (.ofString "runtime error: invalid memory address or nil pointer dereference")

/-- `Value.Kind()`: `Invalid` for the zero Value. -/
def RValue.Kind : RValue → Kind
  | .zero => .Invalid
  | .direct v => v.typ.Kind
  | .indirect t _ => t.Kind

/-- `Value.Type()`: panics on the zero Value. -/
def RValue.Type : RValue → Except Panic GoType
  | .zero => throw (.ofString "reflect: call of reflect.Value.Type on zero Value")
  | .direct v => pure v.typ
  | .indirect t _ => pure t

/-- `Value.String()`: the content of a string, `<T Value>` for the other kinds
(an addressable string is not read from memory here: the package prints only
values it got from `reflect.ValueOf`). -/
def RValue.String : RValue → String
  | .zero => "<invalid Value>"
  | .direct ⟨t, .data (.str s)⟩ => if t.Kind = .String then s else "<" ++ t.String ++ " Value>"
  | .direct v => "<" ++ v.typ.String ++ " Value>"
  | .indirect t _ => "<" ++ t.String ++ " Value>"

/-- `Value.Elem()` where the memory is not needed: of a pointer, the variable
pointed to (the zero Value for a nil pointer); of an interface, the value it
holds; panics for every other kind. -/
def RValue.Elem (v : RValue) : Except Panic RValue :=
  match v with
  | .zero => throw (.ofString "reflect: call of reflect.Value.Elem on zero Value")
  | .direct ⟨t, p⟩ =>
    if t.Kind = .Ptr then
      match p with
      | .data (.ptr a) => do
        let e ← t.Elem
        pure (.indirect e a)
      | _ => pure .zero
    else if t.Kind = .Interface then
      match p with
      | .data (.boxed dyn d) => pure (.direct ⟨dyn, .data d⟩)
      | _ => pure .zero
    else throw (.ofString ("reflect: call of reflect.Value.Elem on " ++ t.String ++ " Value"))
  | .indirect t _ =>
    throw (.ofString ("reflect: call of reflect.Value.Elem on " ++ t.String ++ " Value"))

/-! ## `err.go` -/

/-- The fragment of `fmt.Sprintf` the package uses, on the operands already
rendered with `%v`: `%v` prints the next operand, `%%` a percent sign, a verb
with no operand left prints `%!c(MISSING)`, a lone `%` at the end
`%!(NOVERB)`. Flags, widths and the other verbs are not modelled. -/
def sprintfChars : List Char → List String → List Char
  | [], _ => []
  | ['%'], _ => "%!(NOVERB)".toList
  | '%' :: '%' :: cs, args => '%' :: sprintfChars cs args
  | '%' :: 'v' :: cs, a :: args => a.toList ++ sprintfChars cs args
  | '%' :: c :: cs, [] => "%!".toList ++ c :: "(MISSING)".toList ++ sprintfChars cs []
  | '%' :: c :: cs, a :: args => "%!".toList ++ c :: '(' :: a.toList ++ ')' :: sprintfChars cs args
  | c :: cs, args => c :: sprintfChars cs args

/-- The call `fmt.Sprintf(format, args...)`. -/
def Sprintf (format : String) (args : List String) : String :=
  String.mk (sprintfChars format.toList args)

/-- The constructor `Err` of `err.go`: an `Error` holding the formatted message. -/
def Err (format : String) (args : List String) : Error :=
  ⟨Sprintf format args⟩

/-! ## `junction.go`: `Source` and `Validate` -/

/-- A source of updates: the channel the update values arrive on, the update
rule, and the model, a pointer to it or a function looking it up. -/
structure Source where
  Input : Iface
  Update : Iface
  Model : Iface

/-- The error `Validate` falls through to for a model it does not accept. -/
def targetKindErr (target : RValue) : Error :=
  Err ("Target must be a pointer or func(X)(*Model,bool), not " ++ target.String) []

/-- One pass of the body of the loop of `Validate` over a source: `some e` when
the pass returns the error `e`, `none` when it reaches `continue`. -/
def validateSource (Implements : GoType → GoType → Bool) (mtype : GoType) (src : Source) :
    Except Panic (Option Error) :=
  let target := ValueOf src.Model
  if target.Kind = .Ptr then do
    let got ← (← target.Elem).Type
    if mtype ≠ got then
      pure (some (Err "Differing target types, want %v got %v" [mtype.String, got.String]))
    else pure none
  else if target.Kind = .Func then do
    let ttype ← target.Type
    let itype ← (← deref (TypeOf src.Input)).Elem
    if (← ttype.NumIn) = 1 then do
      if AssignableTo Implements itype (← ttype.In 0) then do
        if (← ttype.NumOut) = 2 then do
          let r0 ← ttype.Out 0
          if mtype ≠ (← r0.Elem) then pure (some (Err "Differing target types" []))
          else do
            let r1 ← ttype.Out 1
            if r1 ≠ .bool then pure (some (Err "Second return arg is not a bool" []))
            else pure none
        else pure (some (targetKindErr target))
      else pure (some (targetKindErr target))
    else pure (some (targetKindErr target))
  else pure (some (targetKindErr target))

/-- The loop of `Validate` over the sources: the first error returned, `none`
when every pass reaches `continue`. -/
def validateSources (Implements : GoType → GoType → Bool) (mtype : GoType) :
    List Source → Except Panic (Option Error)
  | [] => pure none
  | src :: rest => do
    match ← validateSource Implements mtype src with
    | some e => pure (some e)
    | none => validateSources Implements mtype rest

/-- The function `Validate`: `pure none` is a nil error, `pure (some e)` the
returned error `e`, `throw p` a panic. -/
def Validate (Implements : GoType → GoType → Bool) (output : Iface) (sources : List Source) :
    Except Panic (Option Error) := do
  let otype ← deref (TypeOf output)
  if otype.Kind ≠ .Ptr then pure (some (Err "Output must be a pointer" []))
  else do
    if (← otype.Elem).Kind ≠ .Chan then pure (some (Err "Output must be a pointer to a channel" []))
    else do
      let mtype ← (← (← deref (TypeOf output)).Elem).Elem
      validateSources Implements mtype sources

/-! ## `reflect`: calls, sends and channel creation -/

/-- The data a `reflect.Value` stands for: held directly, or read from memory
for an addressable variable. Functions are not passed around as data. -/
def RValue.load (h : Heap) : RValue → Data
  | .zero => .nil
  | .direct ⟨_, .data d⟩ => d
  | .direct ⟨_, .fn _⟩ => .nil
  | .indirect _ a => h a

/-- The conversion `Value.assignTo`: the data of a value of type `vt` as a
variable of type `t` holds it, boxed with its dynamic type when `t` is an
interface type and `vt` is not. -/
def RValue.assignTo (h : Heap) (v : RValue) (vt t : GoType) : Data :=
  if t.Kind = .Interface ∧ vt.Kind ≠ .Interface then .boxed vt (v.load h) else v.load h

/-- The argument checks of `Value.Call` for the fixed parameters: each
argument type must be assignable to its parameter type. -/
def checkArgs (Implements : GoType → GoType → Bool) (h : Heap) :
    List RValue → List GoType → Except Panic (List Data)
  | x :: xs, targ :: targs => do
    let xt ← x.Type
    if AssignableTo Implements xt targ then do
      let rest ← checkArgs Implements h xs targs
      pure (x.assignTo h xt targ :: rest)
    else throw (.ofString ("reflect: Call using " ++ xt.String ++ " as type " ++ targ.String))
  | _, _ => pure []

/-- The packing of the trailing arguments of a variadic call into a slice of
the element type `elem`. -/
def packVariadic (Implements : GoType → GoType → Bool) (h : Heap) (elem : GoType) :
    List RValue → Except Panic (List Data)
  | [] => pure []
  | x :: xs => do
    let xt ← x.Type
    if AssignableTo Implements xt elem then do
      let rest ← packVariadic Implements h elem xs
      pure (x.assignTo h xt elem :: rest)
    else throw (.ofString
      ("reflect: cannot use " ++ xt.String ++ " as type " ++ elem.String ++ " in Call"))

/-- `Value.Call(args)`: the checks `reflect` makes (a function, not nil, the
argument count, no zero Value, assignable arguments), then the call; each
result comes back with its declared result type. -/
def RValue.Call (Implements : GoType → GoType → Bool) (fn : RValue) (args : List RValue)
    (h : Heap) : Except Panic (List RValue × Heap) :=
  match fn with
  | .zero => throw (.ofString "reflect: call of reflect.Value.Call on zero Value")
  | .indirect t _ =>
    if t.Kind ≠ .Func then
      throw (.ofString ("reflect: call of reflect.Value.Call on " ++ kindString t.Kind ++ " Value"))
    else throw (.ofString "reflect.Value.Call: call of nil function")
  | .direct ⟨t, p⟩ =>
    if t.Kind ≠ .Func then
      throw (.ofString ("reflect: call of reflect.Value.Call on " ++ kindString t.Kind ++ " Value"))
    else
      match p with
      | .data _ => throw (.ofString "reflect.Value.Call: call of nil function")
      | .fn f =>
        let n := if t.IsVariadic then t.ins.length - 1 else t.ins.length
        if args.length < n then
          throw (.ofString "reflect: Call with too few input arguments")
        else if !t.IsVariadic && args.length > n then
          throw (.ofString "reflect: Call with too many input arguments")
        else if args.any (fun x => x.Kind == .Invalid) then
          throw (.ofString "reflect: Call using zero Value argument")
        else do
          let fixed ← checkArgs Implements h (args.take n) (t.ins.take n)
          let packed ←
            if t.IsVariadic then do
              let last ← t.In n
              let elem ← last.Elem
              let xs ← packVariadic Implements h elem (args.drop n)
              pure [Data.seq (DataList.ofList xs)]
            else pure []
          let (results, h1) ← f (fixed ++ packed) h
          pure ((t.outs.zip results).map (fun r => RValue.direct ⟨r.1, .data r.2⟩), h1)

/-- `channel.Send(x)`: the checks `reflect` makes, then the data handed to the
receiver; sending on a nil channel blocks for ever. -/
def RValue.Send (Implements : GoType → GoType → Bool) (channel x : RValue) (h : Heap) :
    Except Panic Data :=
  if channel.Kind ≠ .Chan then
    throw (.ofString ("reflect: call of reflect.Value.Send on " ++ kindString channel.Kind ++ " Value"))
  else do
    let t ← channel.Type
    if t.ChanDir? = some .RecvDir then throw (.ofString "reflect: send on recv-only channel")
    else
      match x with
      | .zero => throw (.ofString "reflect: call of reflect.Value.Send on zero Value")
      | _ => do
        let xt ← x.Type
        let et ← t.Elem
        if AssignableTo Implements xt et then
          match channel.load h with
          | .chan _ => pure (x.assignTo h xt et)
          | _ => throw .blocked
        else throw (.ofString ("reflect.Value.Send: value of type " ++ xt.String
          ++ " is not assignable to type " ++ et.String))

/-- `v.Set(x)`: `v` must be addressable and `x` assignable to its type; the
variable is overwritten. -/
def RValue.Set (Implements : GoType → GoType → Bool) (v x : RValue) (h : Heap) :
    Except Panic Heap :=
  match v with
  | .zero => throw (.ofString "reflect: call of reflect.Value.Set on zero Value")
  | .direct _ => throw (.ofString "reflect: reflect.Value.Set using unaddressable value")
  | .indirect t a =>
    match x with
    | .zero => throw (.ofString "reflect: call of reflect.Value.Set on zero Value")
    | _ => do
      let xt ← x.Type
      if AssignableTo Implements xt t then pure (h.store a (x.assignTo h xt t))
      else throw (.ofString ("reflect.Set: value of type " ++ xt.String
        ++ " is not assignable to type " ++ t.String))

/-- A channel made so far: its type and buffer capacity. -/
structure ChanInfo where
  typ : GoType
  cap : Nat
  deriving DecidableEq

/-- The goroutine `New` starts: the sources and the output channel it captured. -/
structure Worker where
  sources : List Source
  channel : RValue

/-- The program state `New` acts on: memory, the channels made so far (a
channel is identified by its position) and the goroutines started. -/
structure World where
  heap : Heap
  chans : List ChanInfo
  workers : List Worker

/-- `reflect.MakeChan(typ, buffer)`: a new bidirectional channel. -/
def MakeChan (typ : GoType) (buffer : Nat) (w : World) : Except Panic (RValue × World) :=
  if typ.Kind ≠ .Chan then throw (.ofString "reflect.MakeChan of non-chan type")
  else if typ.ChanDir? ≠ some .BothDir then
    throw (.ofString "reflect.MakeChan: unidirectional channel type")
  else
    pure (.direct ⟨typ, .data (.chan w.chans.length)⟩,
      { w with chans := w.chans ++ [⟨typ, buffer⟩] })

/-! ## `junction.go`: `New` and the dispatcher -/

/-- The function `makeOutputChan`: make an unbuffered channel of the type
`output` points to and store it there. -/
def makeOutputChan (Implements : GoType → GoType → Bool) (o : Iface) (w : World) :
    Except Panic (RValue × World) := do
  let output := ValueOf o
  let (channel, w1) ← MakeChan (← (← output.Elem).Type) 0 w
  let h ← (← output.Elem).Set Implements channel w1.heap
  pure (channel, { w1 with heap := h })

/-- The expression `v.Interface().(bool)`: the boolean a value holds, a panic
when its dynamic type is not `bool`. -/
def RValue.assertBool : RValue → Except Panic Bool
  | RValue.direct ⟨t, Payload.data (Data.bool b)⟩ =>
    if t = GoType.bool then pure b
    else throw (.ofString ("interface conversion: interface {} is " ++ t.String ++ ", not bool"))
  | RValue.direct ⟨t, Payload.data (Data.boxed dyn (Data.bool b))⟩ =>
    if t.Kind = Kind.Interface ∧ dyn = GoType.bool then pure b
    else throw (.ofString ("interface conversion: interface {} is " ++ t.String ++ ", not bool"))
  | _ => throw (.ofString "interface conversion: interface {} is not bool")

/-- The method `Source.getTarget`: the model to update and whether there is one,
with the memory the lookup leaves. -/
def Source.getTarget (Implements : GoType → GoType → Bool) (source : Source) (update : RValue)
    (h : Heap) : Except Panic ((RValue × Bool) × Heap) :=
  let model := ValueOf source.Model
  if model.Kind = .Ptr then pure ((model, true), h)
  else if model.Kind = .Func then do
    let (results, h1) ← model.Call Implements [update] h
    match results[1]? with
    | none => throw (.ofString "runtime error: index out of range [1]")
    | some r1 => do
      if (← r1.assertBool) then
        match results[0]? with
        | some r0 => pure ((r0, true), h1)
        | none => throw (.ofString "runtime error: index out of range [0]")
      else pure ((.zero, false), h1)
  else throw (.ofString ("Wrong kind of model: " ++ kindString model.Kind))

/-- What `reflect.Select` hands back: the index of the chosen case, the value
received and whether it was a real value (false: the channel is closed). -/
structure Selected where
  chosen : Nat
  recv : RValue
  recvOK : Bool

/-- The state of the dispatcher goroutine: memory, and the snapshots sent on the
output channel so far, oldest first. -/
structure DState where
  heap : Heap
  sent : List Data

/-- One pass of the loop of the goroutine of `New`, for the outcome `sel` of
`reflect.Select`. -/
def iteration (Implements : GoType → GoType → Bool) (sources : List Source) (channel : RValue)
    (st : DState) (sel : Selected) : Except Panic DState :=
  if !sel.recvOK then throw (.ofString "Input closed")
  else
    match sources[sel.chosen]? with
    | none => throw (.ofString "runtime error: index out of range")
    | some source => do
      let update := ValueOf source.Update
      let ((target, ok), h1) ← source.getTarget Implements sel.recv st.heap
      if ok then do
        let (_, h2) ← update.Call Implements [target, sel.recv] h1
        let snapshot ← channel.Send Implements (← target.Elem) h2
        pure ⟨h2, st.sent ++ [snapshot]⟩
      else pure ⟨h1, st.sent⟩

/-- The loop of the goroutine over the successive outcomes of `reflect.Select`. -/
def run (Implements : GoType → GoType → Bool) (sources : List Source) (channel : RValue) :
    DState → List Selected → Except Panic DState
  | st, [] => pure st
  | st, sel :: rest => do
    let st1 ← iteration Implements sources channel st sel
    run Implements sources channel st1 rest

/-- The goroutine of `New` from its start in memory `h`, nothing sent yet. -/
def dispatcher (Implements : GoType → GoType → Bool) (wk : Worker) (h : Heap)
    (events : List Selected) : Except Panic DState :=
  run Implements wk.sources wk.channel ⟨h, []⟩ events

/-- The function `New`: the panic it raises, if any, and the state it leaves. -/
def New (Implements : GoType → GoType → Bool) (output : Iface) (sources : List Source)
    (w : World) : Option Panic × World :=
  match Validate Implements output sources with
  | .error p => (some p, w)
  | .ok (some err) => (some (.ofError err), w)
  | .ok none =>
    match makeOutputChan Implements output w with
    | .error p => (some p, w)
    | .ok (channel, w1) => (none, { w1 with workers := w1.workers ++ [⟨sources, channel⟩] })

/-! ## `reflect.Select` and the goroutine of `New` -/

/-- The direction of a select case, `reflect.SelectDir`. -/
inductive SelectDir
  | SelectSend | SelectRecv | SelectDefault
  deriving DecidableEq, Repr

/-- A case of `reflect.Select`, `reflect.SelectCase`. -/
structure SelectCase where
  Dir : SelectDir
  Chan : RValue
  Send : RValue

/-- The function `buildCases`: for each source in turn, a receive case on its
`Input` is appended. -/
def buildCases (sources : List Source) : List SelectCase :=
  sources.foldl (fun cases src => cases ++ [⟨.SelectRecv, ValueOf src.Input, .zero⟩]) []

/-- What a channel holds for its receivers: the values its senders have ready,
oldest first, and whether it has been closed. -/
structure ChanState where
  queue : List Data
  closed : Bool

/-- The state of the channels, by channel identity. -/
abbrev ChanEnv := Nat → ChanState

/-- Replace the state of the channel `id`. -/
def ChanEnv.set (env : ChanEnv) (id : Nat) (s : ChanState) : ChanEnv :=
  fun i => if i = id then s else env i

/-- The channel a `reflect.Value` holds directly; none for a nil channel. -/
def chanId? : RValue → Option Nat
  | RValue.direct ⟨_, Payload.data (Data.chan id)⟩ => some id
  | _ => none

/-- The check `reflect.Select` makes of one case before it waits. A receive
case must have no `Send` value; a zero `Chan` is allowed (the case is ignored);
otherwise `Chan` must be a channel that is not send-only. -/
def checkCase (c : SelectCase) : Except Panic Unit :=
  match c.Dir with
  | .SelectDefault =>
    if c.Chan.Kind ≠ .Invalid then throw (.ofString "reflect.Select: default case has Chan value")
    else if c.Send.Kind ≠ .Invalid then
      throw (.ofString "reflect.Select: default case has Send value")
    else pure ()
  | .SelectSend =>
    if c.Chan.Kind = .Invalid then pure ()
    else if c.Chan.Kind ≠ .Chan then
      throw (.ofString ("reflect: call of reflect.Select on " ++ kindString c.Chan.Kind ++ " Value"))
    else do
      if (← c.Chan.Type).ChanDir? = some .RecvDir then
        throw (.ofString "reflect.Select: SendDir case using recv-only channel")
      else if c.Send.Kind = .Invalid then
        throw (.ofString "reflect.Select: SendDir case missing Send value")
      else pure ()
  | .SelectRecv =>
    if c.Send.Kind ≠ .Invalid then throw (.ofString "reflect.Select: RecvDir case has Send value")
    else if c.Chan.Kind = .Invalid then pure ()
    else if c.Chan.Kind ≠ .Chan then
      throw (.ofString ("reflect: call of reflect.Select on " ++ kindString c.Chan.Kind ++ " Value"))
    else do
      if (← c.Chan.Type).ChanDir? = some .SendDir then
        throw (.ofString "reflect.Select: RecvDir case using send-only channel")
      else pure ()

/-- The checks of `reflect.Select` over its cases, in order; `haveDefault` says
whether a default case has been met already. -/
def checkCases (haveDefault : Bool) : List SelectCase → Except Panic Unit
  | [] => pure ()
  | c :: rest => do
    if c.Dir = .SelectDefault ∧ haveDefault = true then
      throw (.ofString "reflect.Select: multiple default cases")
    else do
      checkCase c
      checkCases (haveDefault || decide (c.Dir = .SelectDefault)) rest

/-- A receive case with something to deliver: its channel has a value ready, or
is closed. -/
def caseReady (env : ChanEnv) (c : SelectCase) : Bool :=
  match c.Dir, chanId? c.Chan with
  | .SelectRecv, some id => !(env id).queue.isEmpty || (env id).closed
  | _, _ => false

/-- `reflect.Select(cases)` when the run-time system settles on the case `pick`:
the index chosen, the value received and whether the channel delivered a value,
with the channels as the receive leaves them. `throw .blocked` says that
`Select` does not return by that case, which is not ready; when no case is
ready `Select` blocks. On a closed channel the value is the zero value of the
element type, whose content is not modelled. The package makes receive cases
only: a send case is never ready here. -/
def Select (cases : List SelectCase) (env : ChanEnv) (pick : Nat) :
    Except Panic (Selected × ChanEnv) :=
  if cases.length > 65536 then throw (.ofString "reflect.Select: too many cases (max 65536)")
  else do
    checkCases false cases
    match cases[pick]? with
    | none => throw .blocked
    | some c =>
      match c.Dir with
      | .SelectSend => throw .blocked
      | .SelectDefault =>
        if cases.any (caseReady env) then throw .blocked
        else pure (⟨pick, .zero, false⟩, env)
      | .SelectRecv =>
        match chanId? c.Chan with
        | none => throw .blocked
        | some id => do
          let et ← (← c.Chan.Type).Elem
          match (env id).queue with
          | v :: q =>
            pure (⟨pick, .direct ⟨et, .data v⟩, true⟩, env.set id ⟨q, (env id).closed⟩)
          | [] =>
            if (env id).closed then pure (⟨pick, .direct ⟨et, .data .nil⟩, false⟩, env)
            else throw .blocked

/-- The state of the goroutine of `New` with the channels it receives from. -/
structure GState where
  heap : Heap
  env : ChanEnv
  sent : List Data

/-- One pass of the loop of the goroutine of `New`: the wait in
`reflect.Select`, settled on the case `pick`, then the body of the loop. -/
def pass (Implements : GoType → GoType → Bool) (sources : List Source) (channel : RValue)
    (cases : List SelectCase) (g : GState) (pick : Nat) : Except Panic GState := do
  let (sel, env1) ← Select cases g.env pick
  let st ← iteration Implements sources channel ⟨g.heap, g.sent⟩ sel
  pure ⟨st.heap, env1, st.sent⟩

/-- The loop of the goroutine over the successive choices of `reflect.Select`,
for the cases `cases`: the state reached and the panic that ended the loop, if
any. When a pass fails the state is the one at the head of that pass (a pass
sends only as its last step, so `sent` is what was sent in all). -/
def loop (Implements : GoType → GoType → Bool) (sources : List Source) (channel : RValue)
    (cases : List SelectCase) : GState → List Nat → GState × Option Panic
  | g, [] => (g, none)
  | g, pick :: rest =>
    match pass Implements sources channel cases g pick with
    | .error p => (g, some p)
    | .ok g1 => loop Implements sources channel cases g1 rest

/-- The goroutine of `New`: `cases := buildCases(sources)`, then the loop. -/
def goroutine (Implements : GoType → GoType → Bool) (sources : List Source) (channel : RValue)
    (g : GState) (picks : List Nat) : GState × Option Panic :=
  loop Implements sources channel (buildCases sources) g picks

/-! ## The dispatcher and its output channel as a transition system -/

/-- Where the goroutine is in its loop: waiting in `reflect.Select`, or in
`channel.Send` with the snapshot it is sending. -/
inductive Phase
  | waiting
  | sending (snapshot : Data)

/-- The goroutine together with its output channel: memory, the input
channels, the phase, the buffer of the output channel, what the consumers have
taken from it, every snapshot handed to `Send` so far and the number of values
received from the sources (the last two for the statements only). -/
structure Conc where
  heap : Heap
  env : ChanEnv
  phase : Phase
  buffer : List Data
  taken : List Data
  produced : List Data
  received : Nat

/-- The steps of the goroutine and of those around it, for an output channel of
capacity `cap`. `receive`: in the waiting phase `reflect.Select` returns and the
body of the loop runs up to `channel.Send`, or back to the wait when there is
nothing to send. `enqueue`: the send completes into a free slot of the buffer.
`handoff`: with nothing buffered, a consumer takes the snapshot from the sender.
`consume`: a consumer takes the oldest buffered snapshot. `produce`: producers
send on, or close, input channels. -/
inductive Step (Implements : GoType → GoType → Bool) (sources : List Source) (channel : RValue)
    (cap : Nat) : Conc → Conc → Prop
  | receive (c : Conc) (pick : Nat) (sel : Selected) (env1 : ChanEnv) (st1 : DState) :
    c.phase = .waiting →
    Select (buildCases sources) c.env pick = .ok (sel, env1) →
    iteration Implements sources channel ⟨c.heap, []⟩ sel = .ok st1 →
    Step Implements sources channel cap c
      { heap := st1.heap, env := env1,
        phase := (match st1.sent with
          | [] => Phase.waiting
          | d :: _ => Phase.sending d),
        buffer := c.buffer, taken := c.taken, produced := c.produced ++ st1.sent,
        received := c.received + 1 }
  | enqueue (c : Conc) (d : Data) :
    c.phase = .sending d → c.buffer.length < cap →
    Step Implements sources channel cap c { c with phase := .waiting, buffer := c.buffer ++ [d] }
  | handoff (c : Conc) (d : Data) :
    c.phase = .sending d → c.buffer = [] →
    Step Implements sources channel cap c { c with phase := .waiting, taken := c.taken ++ [d] }
  | consume (c : Conc) (d : Data) (rest : List Data) :
    c.buffer = d :: rest →
    Step Implements sources channel cap c { c with buffer := rest, taken := c.taken ++ [d] }
  | produce (c : Conc) (env1 : ChanEnv) :
    Step Implements sources channel cap c { c with env := env1 }

/-- The states the goroutine can be in, from its start: waiting, nothing
buffered, taken, produced or received. -/
inductive Reachable (Implements : GoType → GoType → Bool) (sources : List Source)
    (channel : RValue) (cap : Nat) : Conc → Prop
  | start (h : Heap) (env : ChanEnv) :
    Reachable Implements sources channel cap ⟨h, env, .waiting, [], [], [], 0⟩
  | step (c c1 : Conc) :
    Reachable Implements sources channel cap c → Step Implements sources channel cap c c1 →
    Reachable Implements sources channel cap c1

/-- The snapshots handed to `Send` that no consumer has taken yet: those in the
buffer, then the one being sent. -/
def Conc.outstanding (c : Conc) : List Data :=
  c.buffer ++ (match c.phase with
    | .waiting => []
    | .sending d => [d])

/-! ## The snapshots the events call for -/

/-- The type of the values received from a source: the element type of its
input channel. -/
def Source.recvType (src : Source) : Option GoType :=
  (TypeOf src.Input).bind GoType.elem?

/-- The outcome of `reflect.Select` when the source of index `ev.1` delivers
the value `ev.2`. -/
def received (sources : List Source) (ev : Nat × Data) : Selected :=
  ⟨ev.1,
    match (sources[ev.1]?).bind Source.recvType with
    | some E => .direct ⟨E, .data ev.2⟩
    | none => .zero,
    true⟩

/-- Specification, locating the model: a fixed pointer is the model; a resolver
is applied to the received value, converted to its parameter type, and locates
the model whose address it returns when it reports found. The result is the
address located, if any, and the memory the lookup leaves; `none` when the
resolver panics or what it returns is no pointer with a boolean. -/
def specLocate (src : Source) (v : Data) (h : Heap) : Option (Option Nat × Heap) :=
  match src.Model, src.recvType with
  | some ⟨_, .data (.ptr a)⟩, _ => some (some a, h)
  | some ⟨t, .fn g⟩, some E =>
    match t.ins with
    | [P] =>
      match g [(RValue.direct ⟨E, .data v⟩).assignTo h E P] h with
      | .ok (.ptr a :: .bool true :: _, h1) => some (some a, h1)
      | .ok (_ :: .bool false :: _, h1) => some (none, h1)
      | _ => none
    | _ => none
  | _, _ => none

/-- Specification, one event: when a model is located, the update rule of the
source is applied to the pointer to that model and the received value, and the
snapshot is the value of the model in the memory the update rule leaves; when
none is located nothing is applied and there is no snapshot. The result is
the memory after the event and the snapshot, if any; `none` when the resolver
or the update rule panics. -/
def specEvent (src : Source) (v : Data) (h : Heap) : Option (Heap × Option Data) :=
  match specLocate src v h with
  | none => none
  | some (none, h1) => some (h1, none)
  | some (some a, h1) =>
    match src.Update with
    | some ⟨_, .fn f⟩ =>
      match f [.ptr a, v] h1 with
      | .ok (_, h2) => some (h2, some (h2 a))
      | .error _ => none
    | _ => none

/-- Specification, a sequence of events `(index of the source, value)`: each
event acts on the memory the earlier events left; the snapshots come in the
order of the events. -/
def specRun (sources : List Source) : Heap → List (Nat × Data) → Option (Heap × List Data)
  | h, [] => some (h, [])
  | h, ev :: rest =>
    match sources[ev.1]? with
    | none => none
    | some src =>
      match specEvent src ev.2 h with
      | none => none
      | some (h1, snap) =>
        match specRun sources h1 rest with
        | none => none
        | some (h2, snaps) => some (h2, snap.toList ++ snaps)

/-- Specification: the number of events that locate a model, each in the memory
the earlier events left. -/
def specLocated (sources : List Source) : Heap → List (Nat × Data) → Nat
  | _, [] => 0
  | h, ev :: rest =>
    match sources[ev.1]? with
    | none => 0
    | some src =>
      match specLocate src ev.2 h, specEvent src ev.2 h with
      | some (loc, _), some (h1, _) =>
        (if loc.isSome then 1 else 0) + specLocated sources h1 rest
      | _, _ => 0

/-- The source can be dispatched for the model type `M`: values of a type `E`
arrive on its input; its model is a non-nil pointer of a pointer type `R` to `M`,
or a resolver with one parameter, to which `E` is assignable, and the results
`(R, bool)`, which is what `Validate` accepts with the first result a pointer;
and its update rule, which `Validate` does not look at, is a function of type
`func(R, E)`. Neither function is variadic. -/
def Dispatchable (I : GoType → GoType → Bool) (M : GoType) (src : Source) : Prop :=
  ∃ E R ft f, src.recvType = some E ∧ src.Update = some ⟨ft, .fn f⟩ ∧ ft.Kind = .Func ∧
    ft.ins = [R, E] ∧ ft.IsVariadic = false ∧ R.Kind = .Ptr ∧ R.elem? = some M ∧
    ((∃ a, src.Model = some ⟨R, .data (.ptr a)⟩) ∨
     (∃ t g P, src.Model = some ⟨t, .fn g⟩ ∧ t.Kind = .Func ∧ t.ins = [P] ∧
        t.IsVariadic = false ∧ AssignableTo I E P = true ∧ t.outs = [R, .bool]))

/-- Specification for sources that act on their models only: `locate i v` is the
address of the model the source of index `i` locates for the value `v`, if any,
and `apply i m v` the value its update rule gives a model of value `m`. Each
event that locates a model yields the address of the model with its value after
the update, and the later events see that value. -/
def pureRun (locate : Nat → Data → Option Nat) (apply : Nat → Data → Data → Data) :
    Heap → List (Nat × Data) → List (Nat × Data)
  | _, [] => []
  | h, ev :: rest =>
    match locate ev.1 ev.2 with
    | some a =>
      (a, apply ev.1 (h a) ev.2)
        :: pureRun locate apply (h.store a (apply ev.1 (h a) ev.2)) rest
    | none => pureRun locate apply h rest

/-- The sources act on their models only, as `locate` and `apply` say, for the
values of `events` and in every memory that satisfies `Inv`: the lookup leaves
memory as it is, the update rule writes the new value of the model it is given
and nothing else, and `Inv` holds again after it. -/
def PureRules (sources : List Source) (locate : Nat → Data → Option Nat)
    (apply : Nat → Data → Data → Data) (Inv : Heap → Prop) (events : List (Nat × Data)) : Prop :=
  ∀ ev ∈ events, ∃ src, sources[ev.1]? = some src ∧ ∀ h, Inv h →
    match locate ev.1 ev.2 with
    | some a =>
      specEvent src ev.2 h
          = some (h.store a (apply ev.1 (h a) ev.2), some (apply ev.1 (h a) ev.2))
        ∧ Inv (h.store a (apply ev.1 (h a) ev.2))
    | none => specEvent src ev.2 h = some (h, none)

/-! ## What `Validate` can tell apart -/

/-- A payload with what it refers to replaced: a function by the function `fn`,
a non-nil pointer by the pointer to `addr`, a channel by the channel `ch`. -/
def Payload.redirect (fn : GoFunc) (addr ch : Nat) : Payload → Payload
  | .fn _ => .fn fn
  | .data (.ptr _) => .data (.ptr addr)
  | .data (.chan _) => .data (.chan ch)
  | .data d => .data d

/-- An `interface{}` of the same dynamic type with its payload redirected. -/
def redirect (fn : GoFunc) (addr ch : Nat) (i : Iface) : Iface :=
  i.map (fun v => ⟨v.typ, v.val.redirect fn addr ch⟩)

/-- A source with its input and its model redirected and its update rule
replaced by `upd`. -/
def Source.redirect (fn : GoFunc) (addr ch : Nat) (upd : Iface) (src : Source) : Source :=
  ⟨Junction.redirect fn addr ch src.Input, upd, Junction.redirect fn addr ch src.Model⟩

/-! ## The types and values of `junction_test.go` -/

/-- The struct type `Person`. -/
def Person : GoType := .named "junction_test.Person" (.struct "struct { Name string; Age int }")

/-- The interface type `Ider`. -/
def Ider : GoType := .named "junction_test.Ider" (.iface "interface { Id() int }")

/-- The struct type `NameUpdate`. -/
def NameUpdate : GoType := .named "junction_test.NameUpdate" (.struct "struct { id int; name string }")

/-- The struct type `AgeUpdate`. -/
def AgeUpdate : GoType := .named "junction_test.AgeUpdate" (.struct "struct { id int }")

/-- The method sets of the test file: the two update types have the method
`Id`, so they implement `Ider`. -/
def testImplements (v t : GoType) : Bool :=
  t == Ider && (v == NameUpdate || v == AgeUpdate || v == Ider)

/-- A bidirectional channel value `make(chan T)` with identity `id`. -/
def chanOf (T : GoType) (id : Nat) : Iface := some ⟨.chan .BothDir T, .data (.chan id)⟩

/-- The pointer `&out` for a variable `out` of type `T` at address `addr`. -/
def addrOf (T : GoType) (addr : Nat) : Iface := some ⟨.ptr T, .data (.ptr addr)⟩

/-- A `Person` value. -/
def person (name : String) (age : Int) : Data := .record [.str name, .int age]

/-- The method `(*Person).SetName`: `p.Name = name`. -/
def SetName : GoFunc := fun args h =>
  match args with
  | [.ptr a, .str name] =>
    match h a with
    | .seq (.cons _ rest) => pure ([], h.store a (.seq (.cons (.str name) rest)))
    | _ => throw (.ofString "runtime error: invalid memory address or nil pointer dereference")
  | _ => throw (.ofString "runtime error: invalid memory address or nil pointer dereference")

/-- The function `UpdatePersonAge`: `p.Age = age`. -/
def UpdatePersonAge : GoFunc := fun args h =>
  match args with
  | [.ptr a, .int age] =>
    match h a with
    | .seq (.cons name (.cons _ rest)) =>
      pure ([], h.store a (.seq (.cons name (.cons (.int age) rest))))
    | _ => throw (.ofString "runtime error: invalid memory address or nil pointer dereference")
  | _ => throw (.ofString "runtime error: invalid memory address or nil pointer dereference")

/-- The type of `(*Person).SetName`. -/
def SetNameType : GoType := .func (.ofList [.ptr Person, .string]) .nil false

/-- The type of `UpdatePersonAge`. -/
def UpdatePersonAgeType : GoType := .func (.ofList [.ptr Person, .int]) .nil false

/-- Memory holding the model `&Person{Name: "Jeff", Age: 56}` at address 1. -/
def jeffHeap : Heap := fun a => if a = 1 then person "Jeff" 56 else .nil

/-- Addition on the 64-bit `int`: the result wraps around. -/
def wrap64 (x : Int) : Int := (x + 2 ^ 63) % 2 ^ 64 - 2 ^ 63

/-- The function `ApplyNameUpdate`: `p.Name = u.name`. -/
def ApplyNameUpdate : GoFunc := fun args h =>
  match args with
  | [.ptr a, .seq (.cons _ (.cons (.str name) _))] =>
    match h a with
    | .seq (.cons _ rest) => pure ([], h.store a (.seq (.cons (.str name) rest)))
    | _ => throw (.ofString "runtime error: invalid memory address or nil pointer dereference")
  | _ => throw (.ofString "runtime error: invalid memory address or nil pointer dereference")

/-- The function `ApplyAgeUpdate`: `p.Age++`. -/
def ApplyAgeUpdate : GoFunc := fun args h =>
  match args with
  | [.ptr a, _] =>
    match h a with
    | .seq (.cons name (.cons (.int age) rest)) =>
      pure ([], h.store a (.seq (.cons name (.cons (.int (wrap64 (age + 1))) rest))))
    | _ => throw (.ofString "runtime error: invalid memory address or nil pointer dereference")
  | _ => throw (.ofString "runtime error: invalid memory address or nil pointer dereference")

/-- The method value `people.ById` for the map `people` from ids to the
addresses its pointers hold: `ider.Id()` is the field `id` of the update held
by the interface, and the lookup reports whether the id is a key. -/
def ById (people : List (Int × Nat)) : GoFunc := fun args h =>
  match args with
  | [.boxed _ (.seq (.cons (.int id) _))] =>
    match people.lookup id with
    | some a => pure ([.ptr a, .bool true], h)
    | none => pure ([.nil, .bool false], h)
  | _ => throw (.ofString "runtime error: invalid memory address or nil pointer dereference")

/-- The type of `ApplyNameUpdate`. -/
def ApplyNameUpdateType : GoType := .func (.ofList [.ptr Person, NameUpdate]) .nil false

/-- The type of `ApplyAgeUpdate`. -/
def ApplyAgeUpdateType : GoType := .func (.ofList [.ptr Person, AgeUpdate]) .nil false

/-- The type of `people.ById`. -/
def ByIdType : GoType := .func (.ofList [Ider]) (.ofList [.ptr Person, .bool]) false

/-- The map `people` of `Test_Model_lookup_function`: id 123 at address 1, id
456 at address 2. -/
def testPeople : List (Int × Nat) := [(123, 1), (456, 2)]

/-- The two sources of `Test_Model_lookup_function` followed by the source of
each of the two update tests. -/
def testSources : List Source :=
  [ ⟨chanOf NameUpdate 1, some ⟨ApplyNameUpdateType, .fn ApplyNameUpdate⟩,
      some ⟨ByIdType, .fn (ById testPeople)⟩⟩,
    ⟨chanOf AgeUpdate 2, some ⟨ApplyAgeUpdateType, .fn ApplyAgeUpdate⟩,
      some ⟨ByIdType, .fn (ById testPeople)⟩⟩,
    ⟨chanOf .string 3, some ⟨SetNameType, .fn SetName⟩, addrOf Person 1⟩,
    ⟨chanOf .int 4, some ⟨UpdatePersonAgeType, .fn UpdatePersonAge⟩, addrOf Person 1⟩ ]

/-- The output `&out` of the tests, `out` a `chan Person` at address 0. -/
def testOutput : Iface := addrOf (.chan .BothDir Person) 0

/-- A source whose model is a resolver `func(string) ([]Person, bool)`: the first
result is a slice of `Person`, not a pointer to it. -/
def sliceResolverSource : Source :=
  ⟨chanOf .string 3, some ⟨SetNameType, .fn SetName⟩,
    some ⟨.func (.ofList [.string]) (.ofList [.slice Person, .bool]) false,
      .fn (fun _ h => pure ([.nil, .bool false], h))⟩⟩

/-- A source whose model is a resolver `func(string) (Person, bool)`: the first
result is a `Person`, not a pointer to it. -/
def structResolverSource : Source :=
  ⟨chanOf .string 3, some ⟨SetNameType, .fn SetName⟩,
    some ⟨.func (.ofList [.string]) (.ofList [Person, .bool]) false,
      .fn (fun _ h => pure ([person "" 0, .bool false], h))⟩⟩

/-- A source whose model is the nil pointer `(*Person)(nil)`. -/
def nilPointerSource : Source :=
  ⟨chanOf .string 3, some ⟨SetNameType, .fn SetName⟩, some ⟨.ptr Person, .data .nil⟩⟩

/-- A source with the resolver `people.ById` as model and a nil `Input`. -/
def nilInputSource : Source :=
  ⟨none, some ⟨ApplyNameUpdateType, .fn ApplyNameUpdate⟩, some ⟨ByIdType, .fn (ById testPeople)⟩⟩

/-- A source with the resolver `people.ById` as model and the `int` 5 as `Input`. -/
def intInputSource : Source :=
  ⟨some ⟨.int, .data (.int 5)⟩, some ⟨ApplyNameUpdateType, .fn ApplyNameUpdate⟩,
    some ⟨ByIdType, .fn (ById testPeople)⟩⟩

/-- A source with a well-typed `Input` and `Model` whose `Update` is the `int`
42, not a function. -/
def intUpdateSource : Source :=
  ⟨chanOf .string 3, some ⟨.int, .data (.int 42)⟩, addrOf Person 1⟩

/-- The program state of the tests before `New`: the model at address 1, no
channel made, no goroutine started. -/
def testWorld : World := ⟨jeffHeap, [], []⟩

/-- Memory of `Test_Model_lookup_function`: `{Ann,23}` at address 1 and
`{Bob,21}` at address 2. -/
def peopleHeap : Heap :=
  fun a => if a = 1 then person "Ann" 23 else if a = 2 then person "Bob" 21 else .nil

/-- Memory after the two updates of id 123 in `Test_Model_lookup_function`:
`{Anne,24}` at address 1 and `{Bob,21}` at address 2. -/
def anneHeap : Heap :=
  fun a => if a = 1 then person "Anne" 24 else if a = 2 then person "Bob" 21 else .nil

/-- Events of `Test_Model_lookup_function`, as (index of the source, value):
the name update `{123, "Anne"}`, then an age update for the id 999, which is
not in the map, then an age update for 123. -/
def lookupEvents : List (Nat × Data) :=
  [(0, .record [.int 123, .str "Anne"]), (1, .record [.int 999]), (1, .record [.int 123])]

/-- The model the resolver `people.ById` of the tests locates for an update:
the one the map holds for the field `id` of the update. -/
def testLocate (_ : Nat) (v : Data) : Option Nat :=
  match v with
  | .seq (.cons (.int id) _) => testPeople.lookup id
  | _ => none

/-- What the update rules of the first two sources of the tests make of a
`Person`: `ApplyNameUpdate` sets the name, `ApplyAgeUpdate` adds one to the age. -/
def testApply (i : Nat) (m v : Data) : Data :=
  match i, m, v with
  | 0, .seq (.cons _ rest), .seq (.cons _ (.cons (.str name) _)) => .seq (.cons (.str name) rest)
  | 1, .seq (.cons name (.cons (.int age) rest)), _ =>
    .seq (.cons name (.cons (.int (wrap64 (age + 1))) rest))
  | _, m, _ => m

/-- Memory in which address 1 holds a `Person`. -/
def personAt1 (h : Heap) : Prop := ∃ name age, h 1 = person name age

/-- Input channels of which channel 1, the `names` channel, is closed and empty. -/
def closedEnv : ChanEnv := fun id => if id = 1 then ⟨[], true⟩ else ⟨[], false⟩

/-- Input channels of which channel 1, the `names` channel, has the name update
`{123, "Anne"}` ready. -/
def readyEnv : ChanEnv :=
  fun id => if id = 1 then ⟨[.record [.int 123, .str "Anne"]], false⟩ else ⟨[], false⟩

/-- The output channel of the tests as the dispatcher holds it. -/
def testChannel : RValue := .direct ⟨.chan .BothDir Person, .data (.chan 0)⟩

/-- The output `&out` with `out` declared `<-chan Person`, a receive-only channel. -/
def recvOnlyOutput : Iface := addrOf (.chan .RecvDir Person) 0

/-- The output `(*chan Person)(nil)`, a nil pointer. -/
def nilPointerOutput : Iface := some ⟨.ptr (.chan .BothDir Person), .data .nil⟩

/-! ## Predicates used in the statements -/

/-- The output is a pointer to a channel whose element type is `M`. -/
def PtrToChanOf (output : Iface) (M : GoType) : Prop :=
  ∃ v ct, output = some v ∧ v.typ.Kind = .Ptr ∧ v.typ.elem? = some ct ∧
    ct.Kind = .Chan ∧ ct.elem? = some M

/-- The source is well typed for the model type `M`: its model is a non-nil
pointer to `M`, or a function with one parameter, to which the element type of
the input is assignable, and the two results pointer to `M` and `bool`. -/
def WellTyped (I : GoType → GoType → Bool) (M : GoType) (src : Source) : Prop :=
  (∃ t a, src.Model = some ⟨t, .data (.ptr a)⟩ ∧ t.Kind = .Ptr ∧ t.elem? = some M) ∨
  (∃ t f i E P R0, src.Model = some ⟨t, f⟩ ∧ t.Kind = .Func ∧ src.Input = some i ∧
    i.typ.elem? = some E ∧ t.ins = [P] ∧ AssignableTo I E P = true ∧
    t.outs = [R0, .bool] ∧ R0.Kind = .Ptr ∧ R0.elem? = some M)

/-! ## Lemmas on `Validate` -/

theorem Elem_of_elem? {t e : GoType} (h : t.elem? = some e) : t.Elem = .ok e := by
  simp [GoType.Elem, h, pure, Except.pure]

theorem Validate_eq_validateSources (I : GoType → GoType → Bool) {output : Iface} {M : GoType}
    (h : PtrToChanOf output M) (sources : List Source) :
    Validate I output sources = validateSources I M sources := by
  obtain ⟨v, ct, rfl, hp, he, hc, hm⟩ := h
  simp [Validate, TypeOf, deref, hp, Elem_of_elem? he, Elem_of_elem? hm, hc, bind, Except.bind, pure,
    Except.pure]

theorem validateSources_append (I : GoType → GoType → Bool) (M : GoType) (pre rest : List Source)
    (h : ∀ s ∈ pre, validateSource I M s = .ok none) :
    validateSources I M (pre ++ rest) = validateSources I M rest := by
  induction pre with
  | nil => rfl
  | cons s pre ih =>
    have hs := h s (List.mem_cons_self _ _)
    have ih2 := ih (fun x hx => h x (List.mem_cons_of_mem _ hx))
    simp [validateSources, hs, ih2, bind, Except.bind]

theorem validateSources_first_error (I : GoType → GoType → Bool) (M : GoType)
    (pre rest : List Source) (src : Source) (e : Error)
    (h : ∀ s ∈ pre, validateSource I M s = .ok none)
    (hsrc : validateSource I M src = .ok (some e)) :
    validateSources I M (pre ++ src :: rest) = .ok (some e) := by
  rw [validateSources_append I M pre _ h]
  simp [validateSources, hsrc, bind, Except.bind, pure, Except.pure]

theorem validateSource_pointer (I : GoType → GoType → Bool) (M T t : GoType) (a : Nat)
    (src : Source) (hm : src.Model = some ⟨t, .data (.ptr a)⟩) (hk : t.Kind = .Ptr)
    (he : t.elem? = some T) :
    validateSource I M src =
      if M ≠ T then
        .ok (some (Err "Differing target types, want %v got %v" [M.String, T.String]))
      else .ok none := by
  simp [validateSource, hm, ValueOf, RValue.Kind, hk, RValue.Elem, Elem_of_elem? he, RValue.Type,
    bind, Except.bind, pure, Except.pure]

theorem validateSource_func (I : GoType → GoType → Bool) (M E t : GoType) (p : Payload)
    (i : TVal) (src : Source) (hm : src.Model = some ⟨t, p⟩) (hk : t.Kind = .Func)
    (hi : src.Input = some i) (he : i.typ.elem? = some E) :
    validateSource I M src = .ok none ↔
      ∃ P R0, t.ins = [P] ∧ AssignableTo I E P = true ∧ t.outs = [R0, .bool] ∧
        R0.elem? = some M := by
  simp only [validateSource, hm, ValueOf, RValue.Kind, hk, RValue.Type, hi, TypeOf, deref,
    Option.map, Elem_of_elem? he, GoType.NumIn, GoType.In, GoType.NumOut, GoType.Out,
    bind, Except.bind, pure, Except.pure]
  generalize t.ins = ins
  generalize t.outs = outs
  rcases ins with _ | ⟨P, _ | ⟨P2, ins⟩⟩ <;> simp
  by_cases hA : AssignableTo I E P = true <;> simp [hA]
  rcases outs with _ | ⟨R0, _ | ⟨R1, _ | ⟨R2, outs⟩⟩⟩ <;> simp [GoType.Elem]
  cases hR : R0.elem? with
  | none => simp [throw, throwThe, MonadExceptOf.throw, hR]
  | some e =>
    simp [pure, Except.pure]
    by_cases hMe : M = e
    · by_cases hb : R1 = .bool <;> simp [hb, hMe, hR]
    · simp [hMe, hR]
      intro _ h; exact hMe h.symm

theorem validateSource_wellTyped (I : GoType → GoType → Bool) (M : GoType) (src : Source)
    (h : WellTyped I M src) : validateSource I M src = .ok none := by
  rcases h with ⟨t, a, hm, hk, he⟩ | ⟨t, f, i, E, P, R0, hm, hk, hi, he, hins, hA, houts, _, hR⟩
  · rw [validateSource_pointer I M M t a src hm hk he]
    simp
  · exact (validateSource_func I M E t f i src hm hk hi he).mpr ⟨P, R0, hins, hA, houts, hR⟩

theorem validateSource_wrong_kind (I : GoType → GoType → Bool) (M : GoType) (src : Source)
    (hp : (ValueOf src.Model).Kind ≠ .Ptr) (hf : (ValueOf src.Model).Kind ≠ .Func) :
    validateSource I M src = .ok (some (Err
      ("Target must be a pointer or func(X)(*Model,bool), not " ++ (ValueOf src.Model).String)
      [])) := by
  simp [validateSource, hp, hf, targetKindErr, pure, Except.pure]

theorem sprintfChars_cons_ne (c : Char) (cs : List Char) (args : List String) (hc : c ≠ '%') :
    sprintfChars (c :: cs) args = c :: sprintfChars cs args := by
  rw [sprintfChars]
  all_goals simp_all

theorem sprintfChars_plain (pre rest : List Char) (args : List String)
    (hpre : ∀ c ∈ pre, c ≠ '%') :
    sprintfChars (pre ++ rest) args = pre ++ sprintfChars rest args := by
  induction pre with
  | nil => rfl
  | cons c pre ih =>
    have hc := hpre c (List.mem_cons_self _ _)
    have ih2 := ih (fun x hx => hpre x (List.mem_cons_of_mem _ hx))
    rw [List.cons_append, sprintfChars_cons_ne _ _ _ hc, ih2, List.cons_append]

theorem Sprintf_want_got (a b : String) :
    Sprintf "Differing target types, want %v got %v" [a, b]
      = "Differing target types, want " ++ a ++ " got " ++ b := by
  have h : "Differing target types, want %v got %v".toList
      = "Differing target types, want ".toList ++ ('%' :: 'v' :: (" got ".toList ++ ['%', 'v'])) := by
    rfl
  have h1 : ∀ c ∈ "Differing target types, want ".toList, c ≠ '%' := by decide
  have h2 : ∀ c ∈ " got ".toList, c ≠ '%' := by decide
  rw [Sprintf, h, sprintfChars_plain _ _ _ h1, sprintfChars, sprintfChars_plain _ _ _ h2]
  apply String.ext
  simp [sprintfChars]

theorem AssignableTo_refl (I : GoType → GoType → Bool) (t : GoType) : AssignableTo I t t = true := by
  simp [AssignableTo]

theorem Kind_ne_Invalid : ∀ t : GoType, t.Kind ≠ .Invalid
  | .bool => by simp [GoType.Kind]
  | .int => by simp [GoType.Kind]
  | .string => by simp [GoType.Kind]
  | .struct _ => by simp [GoType.Kind]
  | .iface _ => by simp [GoType.Kind]
  | .array _ _ => by simp [GoType.Kind]
  | .chan _ _ => by simp [GoType.Kind]
  | .map _ _ => by simp [GoType.Kind]
  | .ptr _ => by simp [GoType.Kind]
  | .slice _ => by simp [GoType.Kind]
  | .func _ _ _ => by simp [GoType.Kind]
  | .named _ u => by simpa [GoType.Kind] using Kind_ne_Invalid u

theorem validateSources_map_Update (I : GoType → GoType → Bool) (M : GoType) (u : Source → Iface)
    (sources : List Source) :
    validateSources I M (sources.map (fun s => { s with Update := u s }))
      = validateSources I M sources := by
  induction sources with
  | nil => rfl
  | cons s rest ih =>
    have hs : validateSource I M { s with Update := u s } = validateSource I M s := rfl
    simp only [List.map, validateSources, hs, ih]


/-- What `Validate` leaves unchecked surfaces in the dispatcher: with the
`int` 42 as `Update`, the first value received makes `update.Call` panic. -/
theorem dispatcher_panics_on_non_function_Update :
    dispatcher testImplements
        ⟨[intUpdateSource], .direct ⟨.chan .BothDir Person, .data (.chan 0)⟩⟩
        jeffHeap [⟨0, .direct ⟨.string, .data (.str "Fishy Bob")⟩, true⟩]
      = .error (.ofString "reflect: call of reflect.Value.Call on int Value") := by
  rfl

theorem Validate_accepts_inv (I : GoType → GoType → Bool) (output : Iface) (sources : List Source)
    (r : Option Error) (h : Validate I output sources = .ok r) (hr : r = none) :
    ∃ M, PtrToChanOf output M ∧ validateSources I M sources = .ok none := by
  subst hr
  cases output with
  | none => simp [Validate, TypeOf, deref, bind, Except.bind, throw, throwThe, MonadExceptOf.throw] at h
  | some v =>
    by_cases hp : v.typ.Kind = .Ptr
    · cases he : v.typ.elem? with
      | none =>
        simp [Validate, TypeOf, deref, hp, GoType.Elem, he, bind, Except.bind, pure, Except.pure,
          throw, throwThe, MonadExceptOf.throw] at h
      | some ct =>
        by_cases hc : ct.Kind = .Chan
        · cases hm : ct.elem? with
          | none =>
            simp [Validate, TypeOf, deref, hp, GoType.Elem, he, hc, hm, bind,
              Except.bind, pure, Except.pure, throw, throwThe, MonadExceptOf.throw] at h
          | some M =>
            refine ⟨M, ⟨v, ct, rfl, hp, he, hc, hm⟩, ?_⟩
            rw [Validate_eq_validateSources I ⟨v, ct, rfl, hp, he, hc, hm⟩] at h
            exact h
        · simp [Validate, TypeOf, deref, hp, Elem_of_elem? he, hc, bind, Except.bind, pure,
            Except.pure] at h
    · simp [Validate, TypeOf, deref, hp, bind, Except.bind, pure, Except.pure] at h

theorem makeOutputChan_ok_iff (I : GoType → GoType → Bool) (ot ct : GoType) (p : Payload)
    (w : World) (r : RValue × World) (hp : ot.Kind = .Ptr) (he : ot.elem? = some ct)
    (hc : ct.Kind = .Chan) :
    makeOutputChan I (some ⟨ot, p⟩) w = .ok r ↔
      ∃ a, p = .data (.ptr a) ∧ ct.ChanDir? = some .BothDir ∧
        r = (.direct ⟨ct, .data (.chan w.chans.length)⟩,
          ⟨w.heap.store a (.chan w.chans.length), w.chans ++ [⟨ct, 0⟩], w.workers⟩) := by
  have hzero : ∀ q : Payload, (∀ a, q ≠ .data (.ptr a)) →
      RValue.Elem (.direct ⟨ot, q⟩) = .ok .zero := by
    intro q hq
    cases q with
    | fn f => simp [RValue.Elem, hp, pure, Except.pure]
    | data d =>
      cases d <;> first
        | (exfalso; exact hq _ rfl)
        | simp [RValue.Elem, hp, pure, Except.pure]
  by_cases hptr : ∃ a, p = .data (.ptr a)
  · obtain ⟨a, rfl⟩ := hptr
    by_cases hd : ct.ChanDir? = some .BothDir
    · simp [makeOutputChan, ValueOf, RValue.Elem, hp, Elem_of_elem? he, RValue.Type, MakeChan, hc,
        hd, RValue.Set, AssignableTo_refl, RValue.assignTo, RValue.load, bind, Except.bind, pure,
        Except.pure]
      constructor
      · intro h; exact h.symm
      · intro h; exact h.symm
    · simp [makeOutputChan, ValueOf, RValue.Elem, hp, Elem_of_elem? he, RValue.Type, MakeChan, hc,
        hd, bind, Except.bind, pure, Except.pure, throw, throwThe, MonadExceptOf.throw]
  · have hq : ∀ a, p ≠ .data (.ptr a) := fun a h => hptr ⟨a, h⟩
    have hz := hzero p hq
    simp only [makeOutputChan, ValueOf, hz, RValue.Type, bind, Except.bind, throw, throwThe,
      MonadExceptOf.throw]
    simp
    intro a h
    exact absurd h (hq a)

/-- Two outputs `Validate` accepts and `New` panics on, in `makeOutputChan`: a
pointer to a receive-only channel type and a nil pointer. -/
theorem New_panics_on_accepted_output :
    Validate testImplements recvOnlyOutput [] = .ok none
    ∧ New testImplements recvOnlyOutput [] testWorld
      = (some (.ofString "reflect.MakeChan: unidirectional channel type"), testWorld)
    ∧ Validate testImplements nilPointerOutput [] = .ok none
    ∧ New testImplements nilPointerOutput [] testWorld
      = (some (.ofString "reflect: call of reflect.Value.Type on zero Value"), testWorld) :=
  ⟨by decide, rfl, by decide, rfl⟩

/-! ## Lemmas on the dispatcher -/

theorem Kind_of_elem? : ∀ (t : GoType) (e : GoType), t.elem? = some e → t.Kind ≠ .Interface
  | .bool, _, h => by simp [GoType.elem?] at h
  | .int, _, h => by simp [GoType.elem?] at h
  | .string, _, h => by simp [GoType.elem?] at h
  | .struct _, _, h => by simp [GoType.elem?] at h
  | .iface _, _, h => by simp [GoType.elem?] at h
  | .array _ _, _, _ => by simp [GoType.Kind]
  | .chan _ _, _, _ => by simp [GoType.Kind]
  | .map _ _, _, _ => by simp [GoType.Kind]
  | .ptr _, _, _ => by simp [GoType.Kind]
  | .slice _, _, _ => by simp [GoType.Kind]
  | .func _ _ _, _, h => by simp [GoType.elem?] at h
  | .named _ u, e, h => by
    simp only [GoType.elem?] at h
    simpa [GoType.Kind] using Kind_of_elem? u e h

theorem validateSource_ok_kind (I : GoType → GoType → Bool) (M : GoType) (src : Source)
    (h : validateSource I M src = .ok none) :
    (ValueOf src.Model).Kind = .Ptr ∨ (ValueOf src.Model).Kind = .Func := by
  by_cases hp : (ValueOf src.Model).Kind = .Ptr
  · exact Or.inl hp
  · by_cases hf : (ValueOf src.Model).Kind = .Func
    · exact Or.inr hf
    · rw [validateSource_wrong_kind I M src hp hf] at h
      simp at h

theorem validateSource_ok_pointer (I : GoType → GoType → Bool) (M : GoType) (src : Source)
    (h : validateSource I M src = .ok none) (hp : (ValueOf src.Model).Kind = .Ptr) :
    ∃ t a, src.Model = some ⟨t, .data (.ptr a)⟩ ∧ t.Kind = .Ptr ∧ t.elem? = some M := by
  cases hm : src.Model with
  | none => simp [hm, ValueOf, RValue.Kind] at hp
  | some tv =>
    obtain ⟨t, p⟩ := tv
    simp only [hm, ValueOf, RValue.Kind] at hp
    have hzero : (∀ a, p ≠ .data (.ptr a)) → False := by
      intro hq
      have hz : RValue.Elem (.direct ⟨t, p⟩) = .ok .zero := by
        cases p with
        | fn f => simp [RValue.Elem, hp, pure, Except.pure]
        | data d =>
          cases d <;> first
            | (exfalso; exact hq _ rfl)
            | simp [RValue.Elem, hp, pure, Except.pure]
      simp [validateSource, hm, ValueOf, RValue.Kind, hp, hz, RValue.Type, bind, Except.bind,
        throw, throwThe, MonadExceptOf.throw] at h
    have hex : ∃ a, p = .data (.ptr a) := by
      by_contra hne
      exact hzero (fun a ha => hne ⟨a, ha⟩)
    obtain ⟨a, rfl⟩ := hex
    cases he : t.elem? with
    | none =>
      simp [validateSource, hm, ValueOf, RValue.Kind, hp, RValue.Elem, GoType.Elem, he, bind,
        Except.bind, throw, throwThe, MonadExceptOf.throw] at h
    | some T =>
      rw [validateSource_pointer I M T t a src hm hp he] at h
      by_cases hMT : M = T
      · subst hMT
        exact ⟨t, a, rfl, hp, he⟩
      · simp [hMT] at h

theorem validateSource_ok_func (I : GoType → GoType → Bool) (M : GoType) (src : Source)
    (h : validateSource I M src = .ok none) (hf : (ValueOf src.Model).Kind = .Func) :
    ∃ t p inp E P R0, src.Model = some ⟨t, p⟩ ∧ t.Kind = .Func ∧ src.Input = some inp ∧
      inp.typ.elem? = some E ∧ t.ins = [P] ∧ AssignableTo I E P = true ∧
      t.outs = [R0, .bool] ∧ R0.elem? = some M := by
  cases hm : src.Model with
  | none => simp [hm, ValueOf, RValue.Kind] at hf
  | some tv =>
    obtain ⟨t, p⟩ := tv
    simp only [hm, ValueOf, RValue.Kind] at hf
    have hnp : t.Kind ≠ .Ptr := by rw [hf]; decide
    cases hi : src.Input with
    | none =>
      simp [validateSource, hm, ValueOf, RValue.Kind, hf, RValue.Type, hi, TypeOf, deref, bind,
        Except.bind, pure, Except.pure, throw, throwThe, MonadExceptOf.throw] at h
    | some inp =>
      cases he : inp.typ.elem? with
      | none =>
        simp [validateSource, hm, ValueOf, RValue.Kind, hf, RValue.Type, hi, TypeOf, deref,
          GoType.Elem, he, bind, Except.bind, pure, Except.pure, throw, throwThe,
          MonadExceptOf.throw] at h
      | some E =>
        obtain ⟨P, R0, h1, h2, h3, h4⟩ := (validateSource_func I M E t p inp src hm hf hi he).mp h
        exact ⟨t, p, inp, E, P, R0, rfl, hf, rfl, he, h1, h2, h3, h4⟩

theorem validateSources_ok_all (I : GoType → GoType → Bool) (M : GoType) :
    ∀ sources : List Source, validateSources I M sources = .ok none →
      ∀ src ∈ sources, validateSource I M src = .ok none
  | [], _, src, hmem => by cases hmem
  | s :: rest, h, src, hmem => by
    cases hs : validateSource I M s with
    | error e => simp [validateSources, hs, bind, Except.bind] at h
    | ok r =>
      cases r with
      | some e => simp [validateSources, hs, bind, Except.bind, pure, Except.pure] at h
      | none =>
        simp only [validateSources, hs, bind, Except.bind] at h
        rcases List.mem_cons.mp hmem with rfl | hrest
        · exact hs
        · exact validateSources_ok_all I M rest h src hrest

theorem buildCases_nil : buildCases [] = [] := rfl

theorem goroutine_no_sources (I : GoType → GoType → Bool) (channel : RValue) (g : GState) :
    ∀ picks : List Nat, (goroutine I [] channel g picks).1 = g
      ∧ (picks ≠ [] → (goroutine I [] channel g picks).2 = some .blocked)
  | [] => by simp [goroutine, loop]
  | pick :: rest => by
    simp [goroutine, loop, pass, buildCases_nil, Select, checkCases, bind, Except.bind, pure,
      Except.pure, throw, throwThe, MonadExceptOf.throw]

theorem iteration_fixed_pointer (I : GoType → GoType → Bool) (M X pt ft ct : GoType)
    (input : Iface) (f : GoFunc) (a id : Nat) (st : DState) (h1 : Heap) (v : Data)
    (res : List Data)
    (hck : ct.Kind = .Chan) (hce : ct.elem? = some M) (hcd : ct.ChanDir? = some .BothDir)
    (hpt : pt.Kind = .Ptr) (hM : pt.elem? = some M)
    (hft : ft.Kind = .Func) (hins : ft.ins = [pt, X]) (hvar : ft.IsVariadic = false)
    (hf : f [.ptr a, v] st.heap = .ok (res, h1)) :
    iteration I [⟨input, some ⟨ft, .fn f⟩, some ⟨pt, .data (.ptr a)⟩⟩]
        (.direct ⟨ct, .data (.chan id)⟩) st ⟨0, .direct ⟨X, .data v⟩, true⟩
      = .ok ⟨h1, st.sent ++ [h1 a]⟩ := by
  simp [iteration, Source.getTarget, ValueOf, RValue.Kind, hpt, hft,
    RValue.Call, hins, hvar, checkArgs, RValue.Type, AssignableTo_refl, RValue.assignTo,
    RValue.load, hf, RValue.Elem, Elem_of_elem? hM, RValue.Send, Elem_of_elem? hce, hck, hcd,
    Kind_ne_Invalid, bind, Except.bind, pure, Except.pure]

theorem run_fixed_pointer_accumulates (I : GoType → GoType → Bool) (M X pt ft ct : GoType)
    (input : Iface) (f : GoFunc) (a id : Nat) (u : Data → Data → Data)
    (hck : ct.Kind = .Chan) (hce : ct.elem? = some M) (hcd : ct.ChanDir? = some .BothDir)
    (hpt : pt.Kind = .Ptr) (hM : pt.elem? = some M)
    (hft : ft.Kind = .Func) (hins : ft.ins = [pt, X]) (hvar : ft.IsVariadic = false)
    (hf : ∀ v h, f [.ptr a, v] h = .ok ([], h.store a (u (h a) v))) :
    ∀ (vs : List Data) (st : DState),
      ∃ st1, run I [⟨input, some ⟨ft, .fn f⟩, some ⟨pt, .data (.ptr a)⟩⟩]
          (.direct ⟨ct, .data (.chan id)⟩) st
          (vs.map (fun v => ⟨0, .direct ⟨X, .data v⟩, true⟩)) = .ok st1
        ∧ st1.sent = st.sent ++ (List.scanl u (st.heap a) vs).tail
        ∧ st1.heap a = List.foldl u (st.heap a) vs
  | [], st => ⟨st, rfl, by simp, rfl⟩
  | v :: vs, st => by
    have hstep := iteration_fixed_pointer I M X pt ft ct input f a id st _ v [] hck hce hcd hpt hM
      hft hins hvar (hf v st.heap)
    obtain ⟨st1, hr, hs, hh⟩ := run_fixed_pointer_accumulates I M X pt ft ct input f a id u hck
      hce hcd hpt hM hft hins hvar hf vs
      ⟨st.heap.store a (u (st.heap a) v), st.sent ++ [(st.heap.store a (u (st.heap a) v)) a]⟩
    refine ⟨st1, ?_, ?_, ?_⟩
    · simp only [List.map, run, hstep, bind, Except.bind]
      exact hr
    · rw [hs]
      simp [Heap.store, List.scanl]
      cases vs <;> simp [List.scanl]
    · rw [hh]
      simp [Heap.store]

theorem buildCases_foldl (sources : List Source) :
    ∀ cases : List SelectCase,
      sources.foldl (fun cases src => cases ++ [⟨.SelectRecv, ValueOf src.Input, .zero⟩]) cases
        = cases ++ sources.map (fun src => ⟨.SelectRecv, ValueOf src.Input, .zero⟩) := by
  induction sources with
  | nil => intro cases; simp
  | cons s rest ih =>
    intro cases
    simp only [List.foldl, List.map]
    rw [ih]
    simp

theorem buildCases_eq_map (sources : List Source) :
    buildCases sources = sources.map (fun src => ⟨.SelectRecv, ValueOf src.Input, .zero⟩) := by
  rw [buildCases, buildCases_foldl]
  simp

theorem Select_recv_inv (sources : List Source) (env env1 : ChanEnv) (pick : Nat)
    (sel : Selected) (hs : Select (buildCases sources) env pick = .ok (sel, env1)) :
    ∃ src t id E, sources[pick]? = some src ∧ src.Input = some ⟨t, .data (.chan id)⟩ ∧
      t.elem? = some E ∧
      ((∃ v q, (env id).queue = v :: q ∧ sel = ⟨pick, .direct ⟨E, .data v⟩, true⟩ ∧
          env1 = env.set id ⟨q, (env id).closed⟩)
        ∨ ((env id).queue = [] ∧ (env id).closed = true ∧
          sel = ⟨pick, .direct ⟨E, .data .nil⟩, false⟩ ∧ env1 = env)) := by
  rw [buildCases_eq_map] at hs
  unfold Select at hs
  split at hs
  · simp [throw, throwThe, MonadExceptOf.throw] at hs
  · cases hck : checkCases false
        (sources.map (fun src => (⟨.SelectRecv, ValueOf src.Input, .zero⟩ : SelectCase))) with
    | error e => simp [hck, bind, Except.bind] at hs
    | ok u =>
      simp only [hck, bind, Except.bind, List.getElem?_map] at hs
      cases hsrc : sources[pick]? with
      | none => simp [hsrc, throw, throwThe, MonadExceptOf.throw] at hs
      | some src =>
        simp only [hsrc, Option.map] at hs
        cases hin : src.Input with
        | none => simp [hin, ValueOf, chanId?, throw, throwThe, MonadExceptOf.throw] at hs
        | some tv =>
          obtain ⟨t, p⟩ := tv
          cases hid : chanId? (.direct ⟨t, p⟩) with
          | none => simp [hin, ValueOf, hid, throw, throwThe, MonadExceptOf.throw] at hs
          | some id =>
            have hp : p = .data (.chan id) := by
              unfold chanId? at hid
              split at hid
              · rename_i heq
                injection heq with heq
                injection heq with h1 h2
                injection hid with hid
                subst hid
                exact h2
              · simp at hid
            subst hp
            cases he : t.elem? with
            | none =>
              simp [hin, ValueOf, hid, RValue.Type, GoType.Elem, he, throw, throwThe,
                MonadExceptOf.throw, pure, Except.pure] at hs
            | some E =>
              simp only [hin, ValueOf, hid, RValue.Type, Elem_of_elem? he, pure, Except.pure]
                at hs
              refine ⟨src, t, id, E, rfl, hin, he, ?_⟩
              cases hq : (env id).queue with
              | nil =>
                cases hc : (env id).closed with
                | false => simp [hq, hc, throw, throwThe, MonadExceptOf.throw] at hs
                | true =>
                  simp [hq, hc] at hs
                  exact Or.inr ⟨rfl, rfl, hs.1.symm, hs.2.symm⟩
              | cons v q =>
                simp [hq] at hs
                exact Or.inl ⟨v, q, rfl, hs.1.symm, hs.2.symm⟩

theorem iteration_sent_grows (I : GoType → GoType → Bool) (sources : List Source)
    (channel : RValue) (st st1 : DState) (sel : Selected)
    (hit : iteration I sources channel st sel = .ok st1) :
    st1.sent = st.sent ∨ ∃ d, st1.sent = st.sent ++ [d] := by
  unfold iteration at hit
  simp only [bind, Except.bind, pure, Except.pure, throw, throwThe, MonadExceptOf.throw] at hit
  repeat' split at hit
  all_goals first
    | (simp at hit; done)
    | (simp only [Except.ok.injEq] at hit; subst hit; simp)

theorem backpressure_invariant (I : GoType → GoType → Bool) (sources : List Source)
    (channel : RValue) (c : Conc) (hr : Reachable I sources channel 0 c) :
    c.buffer = [] ∧ c.produced = c.taken ++ c.outstanding ∧ c.outstanding.length ≤ 1 := by
  induction hr with
  | start h env => simp [Conc.outstanding]
  | step c c1 _ hstep ih =>
    obtain ⟨hb, hp, hl⟩ := ih
    cases hstep with
    | receive pick sel env1 st1 hph hsel hit =>
      have hout : c.outstanding = [] := by simp [Conc.outstanding, hb, hph]
      rw [hout, List.append_nil] at hp
      rcases iteration_sent_grows I sources channel _ st1 sel hit with h | ⟨d, h⟩
      · simp only [List.nil_append] at h
        simp [Conc.outstanding, hb, h, hp]
      · simp only [List.nil_append] at h
        simp [Conc.outstanding, hb, h, hp]
    | enqueue d hph hlt => simp at hlt
    | handoff d hph hbuf =>
      simp [Conc.outstanding, hb, hph] at hp
      simp [Conc.outstanding, hb, hp]
    | consume d rest hbuf => rw [hb] at hbuf; cases hbuf
    | produce env1 =>
      exact ⟨hb, by simpa [Conc.outstanding] using hp, by simpa [Conc.outstanding] using hl⟩

/-- With an output channel of capacity 1 instead of 0 the goroutine is back in
its wait, free to receive, while a snapshot sits in the buffer untaken. -/
theorem buffered_output_no_backpressure :
    ∃ c, Reachable testImplements testSources testChannel 1 c ∧ c.phase = .waiting
      ∧ c.outstanding = [person "Anne" 23] :=
  ⟨Conc.mk (peopleHeap.store 1 (person "Anne" 23)) (readyEnv.set 1 ⟨[], false⟩)
      .waiting [person "Anne" 23] [] [person "Anne" 23] 1,
    Reachable.step _ _
      (Reachable.step _ _ (Reachable.start peopleHeap readyEnv)
        (Step.receive ⟨peopleHeap, readyEnv, .waiting, [], [], [], 0⟩ 0
          ⟨0, .direct ⟨NameUpdate, .data (.record [.int 123, .str "Anne"])⟩, true⟩
          (readyEnv.set 1 ⟨[], false⟩)
          ⟨peopleHeap.store 1 (person "Anne" 23), [person "Anne" 23]⟩ rfl rfl rfl))
      (Step.enqueue
        (Conc.mk (peopleHeap.store 1 (person "Anne" 23)) (readyEnv.set 1 ⟨[], false⟩)
          (.sending (person "Anne" 23)) [] [] [person "Anne" 23] 1)
        (person "Anne" 23) rfl (by decide)),
    rfl, rfl⟩

/-! ## Lemmas on what `Validate` can tell apart -/

theorem validateSource_redirect (I : GoType → GoType → Bool) (M : GoType) (fn : GoFunc)
    (addr ch : Nat) (upd : Iface) (src : Source) :
    validateSource I M (src.redirect fn addr ch upd) = validateSource I M src := by
  obtain ⟨input, update, model⟩ := src
  have hin : TypeOf (redirect fn addr ch input) = TypeOf input := by
    cases input <;> simp [redirect, TypeOf]
  cases model with
  | none => simp [validateSource, Source.redirect, redirect, ValueOf, RValue.Kind, targetKindErr,
      RValue.String]
  | some v =>
    obtain ⟨t, p⟩ := v
    cases p with
    | fn g =>
      simp only [validateSource, Source.redirect, hin]
      simp [redirect, Payload.redirect, ValueOf, RValue.Kind, RValue.Elem, RValue.Type,
        targetKindErr, RValue.String]
    | data d =>
      simp only [validateSource, Source.redirect, hin]
      by_cases hk : t.Kind = .Ptr
      · cases he : t.Elem <;> cases d <;>
          simp [redirect, Payload.redirect, ValueOf, RValue.Kind, RValue.Elem, RValue.Type,
            targetKindErr, RValue.String, hk, he, bind, Except.bind, pure, Except.pure]
      · cases d <;>
          simp [redirect, Payload.redirect, ValueOf, RValue.Kind, RValue.Elem, RValue.Type,
            targetKindErr, RValue.String, hk]

theorem Validate_redirect (I : GoType → GoType → Bool) (fn : GoFunc) (addr ch : Nat)
    (upd : Source → Iface) (output : Iface) (sources : List Source) :
    Validate I (redirect fn addr ch output)
        (sources.map (fun src => src.redirect fn addr ch (upd src)))
      = Validate I output sources := by
  have hout : TypeOf (redirect fn addr ch output) = TypeOf output := by
    cases output <;> simp [redirect, TypeOf]
  have hs : ∀ (M : GoType) (l : List Source),
      validateSources I M (l.map (fun src => src.redirect fn addr ch (upd src)))
        = validateSources I M l := by
    intro M l
    induction l with
    | nil => rfl
    | cons s rest ih => simp only [List.map_cons, validateSources, validateSource_redirect, ih]
  simp only [Validate, hout, hs]

/-! ## Lemmas on the specification of the snapshots -/

theorem iteration_refines_specEvent (I : GoType → GoType → Bool) (M ct : GoType) (id : Nat)
    (sources : List Source) (src : Source) (st : DState) (i : Nat) (v : Data)
    (hsrc : sources[i]? = some src) (ht : Dispatchable I M src)
    (hck : ct.Kind = .Chan) (hce : ct.elem? = some M) (hcd : ct.ChanDir? ≠ some .RecvDir) :
    (iteration I sources (.direct ⟨ct, .data (.chan id)⟩) st (received sources (i, v))).toOption
      = (specEvent src v st.heap).map (fun r => ⟨r.1, st.sent ++ r.2.toList⟩) := by
  obtain ⟨E, R, ft, f, hE, hu, hft, hfins, hfvar, hRk, hRe, hmodel⟩ := ht
  rcases hmodel with ⟨a, hm⟩ | ⟨t, g, P, hm, hk, hP, hvar, hA, houts⟩
  · cases hf : f [.ptr a, v] st.heap with
    | error p =>
      simp [iteration, received, hsrc, hE, Source.getTarget, hm, hu, ValueOf, RValue.Kind, hRk,
        RValue.Call, Kind_ne_Invalid, checkArgs, RValue.Type, hft, hfins, hfvar,
        AssignableTo_refl, RValue.assignTo, RValue.load, hf, specEvent, specLocate,
        bind, Except.bind, pure, Except.pure, Except.toOption]
    | ok r =>
      obtain ⟨res, h2⟩ := r
      simp [iteration, received, hsrc, hE, Source.getTarget, hm, hu, ValueOf, RValue.Kind, hRk,
        RValue.Call, Kind_ne_Invalid, checkArgs, RValue.Type, hft, hfins, hfvar,
        AssignableTo_refl, RValue.assignTo, RValue.load, hf, specEvent, specLocate,
        RValue.Elem, Elem_of_elem? hRe, RValue.Send, hck, hcd, Elem_of_elem? hce,
        bind, Except.bind, pure, Except.pure, Except.toOption]
  · have hkp : t.Kind ≠ .Ptr := by rw [hk]; decide
    have hg0 : ∀ r, g [(RValue.direct ⟨E, .data v⟩).assignTo st.heap E P] st.heap = r →
        g [if P.Kind = Kind.Interface ∧ ¬E.Kind = Kind.Interface then Data.boxed E v else v]
          st.heap = r := by
      intro r hr
      simpa [RValue.assignTo, RValue.load] using hr
    cases hg : g [(RValue.direct ⟨E, .data v⟩).assignTo st.heap E P] st.heap with
    | error p =>
      have hg1 := hg0 _ hg
      simp [iteration, received, hsrc, hE, Source.getTarget, hm, hu, ValueOf, RValue.Kind, hk,
        RValue.Call, hP, hvar, Kind_ne_Invalid, checkArgs, RValue.Type, hA, hg, hg1,
        RValue.assignTo, RValue.load, specEvent, specLocate,
        bind, Except.bind, pure, Except.pure, Except.toOption]
    | ok r =>
      have hg1 := hg0 _ hg
      obtain ⟨ds, h1⟩ := r
      have hbase : ∀ (ds : List Data), ds.length < 2 →
          g [(RValue.direct ⟨E, .data v⟩).assignTo st.heap E P] st.heap = .ok (ds, h1) →
          (iteration I sources (.direct ⟨ct, .data (.chan id)⟩) st
              (received sources (i, v))).toOption
            = (specEvent src v st.heap).map (fun r => ⟨r.1, st.sent ++ r.2.toList⟩) := by
        intro ds hlen hg
        have hg1 := hg0 _ hg
        match ds, hlen with
        | [], _ =>
          simp [iteration, received, hsrc, hE, Source.getTarget, hm, hu, ValueOf, RValue.Kind, hk,
            RValue.Call, hP, hvar, Kind_ne_Invalid, checkArgs, RValue.Type, hA, hg, hg1, houts,
            RValue.assignTo, RValue.load, specEvent, specLocate,
            bind, Except.bind, pure, Except.pure, Except.toOption]
        | [d0], _ =>
          simp [iteration, received, hsrc, hE, Source.getTarget, hm, hu, ValueOf, RValue.Kind, hk,
            RValue.Call, hP, hvar, Kind_ne_Invalid, checkArgs, RValue.Type, hA, hg, hg1, houts,
            RValue.assignTo, RValue.load, specEvent, specLocate,
            bind, Except.bind, pure, Except.pure, Except.toOption]
      match ds with
      | [] => exact hbase [] (by simp) hg
      | [d0] => exact hbase [d0] (by simp) hg
      | d0 :: d1 :: rest =>
        have hnb : (∀ b, d1 ≠ .bool b) →
            (iteration I sources (.direct ⟨ct, .data (.chan id)⟩) st
                (received sources (i, v))).toOption
              = (specEvent src v st.heap).map (fun r => ⟨r.1, st.sent ++ r.2.toList⟩) := by
          intro hd1
          cases d1 <;>
            first
            | exact absurd rfl (hd1 _)
            | (simp [iteration, received, hsrc, hE, Source.getTarget, hm, hu, ValueOf, RValue.Kind,
                hk, RValue.Call, hP, hvar, Kind_ne_Invalid, checkArgs, RValue.Type, hA, hg, hg1,
                houts, RValue.assertBool, RValue.assignTo, RValue.load, specEvent, specLocate,
                bind, Except.bind, pure, Except.pure, Except.toOption]
               done)
            | (rename_i dyn d
               cases d <;>
                simp [iteration, received, hsrc, hE, Source.getTarget, hm, hu, ValueOf,
                  RValue.Kind, hk, RValue.Call, hP, hvar, Kind_ne_Invalid, checkArgs, RValue.Type,
                  hA, hg, hg1, houts, RValue.assertBool, RValue.assignTo, RValue.load, specEvent,
                  specLocate, GoType.Kind, bind, Except.bind, pure, Except.pure, Except.toOption])
        by_cases hb : ∃ b, d1 = .bool b
        · obtain ⟨b, rfl⟩ := hb
          cases b with
          | false =>
            simp [iteration, received, hsrc, hE, Source.getTarget, hm, hu, ValueOf, RValue.Kind,
              hk, RValue.Call, hP, hvar, Kind_ne_Invalid, checkArgs, RValue.Type, hA, hg, hg1,
              houts, RValue.assertBool, RValue.assignTo, RValue.load, specEvent, specLocate,
              bind, Except.bind, pure, Except.pure, Except.toOption]
          | true =>
            cases hf : f [d0, v] h1 with
            | error p =>
              cases d0 <;>
                simp [iteration, received, hsrc, hE, Source.getTarget, hm, hu, ValueOf,
                  RValue.Kind, hk, RValue.Call, hP, hvar, Kind_ne_Invalid, checkArgs, RValue.Type,
                  hA, hg, hg1, houts, RValue.assertBool, RValue.assignTo, RValue.load, specEvent,
                  specLocate, hft, hfins, hfvar, hRk, AssignableTo_refl, hf,
                  bind, Except.bind, pure, Except.pure, Except.toOption]
            | ok r =>
              obtain ⟨res, h2⟩ := r
              cases d0 <;>
                simp [iteration, received, hsrc, hE, Source.getTarget, hm, hu, ValueOf,
                  RValue.Kind, hk, RValue.Call, hP, hvar, Kind_ne_Invalid, checkArgs, RValue.Type,
                  hA, hg, hg1, houts, RValue.assertBool, RValue.assignTo, RValue.load, specEvent,
                  specLocate, hft, hfins, hfvar, hRk, AssignableTo_refl, hf,
                  RValue.Elem, Elem_of_elem? hRe, RValue.Send, hck, hcd, Elem_of_elem? hce,
                  bind, Except.bind, pure, Except.pure, Except.toOption]
        · exact hnb (fun b hb1 => hb ⟨b, hb1⟩)

theorem toOption_eq_some {α : Type} {x : Except Panic α} {a : α} :
    x.toOption = some a ↔ x = .ok a := by
  cases x <;> simp [Except.toOption]

theorem toOption_eq_none {α : Type} {x : Except Panic α} :
    x.toOption = none ↔ ∃ p, x = .error p := by
  cases x <;> simp [Except.toOption]

theorem run_refines_specRun (I : GoType → GoType → Bool) (M ct : GoType) (id : Nat)
    (sources : List Source) (ht : ∀ src ∈ sources, Dispatchable I M src)
    (hck : ct.Kind = .Chan) (hce : ct.elem? = some M) (hcd : ct.ChanDir? ≠ some .RecvDir) :
    ∀ (events : List (Nat × Data)) (st : DState),
      (run I sources (.direct ⟨ct, .data (.chan id)⟩) st (events.map (received sources))).toOption
        = (specRun sources st.heap events).map (fun r => ⟨r.1, st.sent ++ r.2⟩)
  | [], st => by simp [run, specRun, pure, Except.pure, Except.toOption]
  | ev :: rest, st => by
    cases hsrc : sources[ev.1]? with
    | none =>
      simp [run, specRun, hsrc, iteration, received, bind, Except.bind, Except.toOption]
    | some src =>
      have hit := iteration_refines_specEvent I M ct id sources src st ev.1 ev.2 hsrc
        (ht src (List.getElem?_mem hsrc)) hck hce hcd
      cases hs : specEvent src ev.2 st.heap with
      | none =>
        rw [hs] at hit
        obtain ⟨p, hp⟩ := toOption_eq_none.mp hit
        simp [run, specRun, hsrc, hs, hp, bind, Except.bind, Except.toOption]
      | some r =>
        obtain ⟨h1, snap⟩ := r
        rw [hs] at hit
        have hp := toOption_eq_some.mp hit
        have ih := run_refines_specRun I M ct id sources ht hck hce hcd rest
          ⟨h1, st.sent ++ snap.toList⟩
        simp only [List.map_cons, run, bind, Except.bind, hp]
        rw [ih]
        cases hr : specRun sources h1 rest with
        | none => simp [specRun, hsrc, hs, hr]
        | some r2 => simp [specRun, hsrc, hs, hr, List.append_assoc]

theorem specEvent_snapshot (src : Source) (v : Data) (h h1 : Heap) (snap : Option Data)
    (he : specEvent src v h = some (h1, snap)) :
    ∃ loc h2, specLocate src v h = some (loc, h2) ∧ snap.toList.length = (if loc.isSome then 1 else 0) := by
  unfold specEvent at he
  cases hl : specLocate src v h with
  | none => simp [hl] at he
  | some l =>
    obtain ⟨loc, h2⟩ := l
    refine ⟨loc, h2, rfl, ?_⟩
    cases loc with
    | none =>
      simp [hl] at he
      simp [← he.2]
    | some a =>
      simp only [hl] at he
      repeat' split at he
      all_goals first
        | (simp at he; done)
        | (simp only [Option.some.injEq, Prod.mk.injEq] at he; simp [← he.2])

theorem specRun_length (sources : List Source) :
    ∀ (events : List (Nat × Data)) (h h1 : Heap) (snaps : List Data),
      specRun sources h events = some (h1, snaps) → snaps.length = specLocated sources h events
  | [], h, h1, snaps, hs => by
    simp [specRun] at hs
    simp [specLocated, ← hs.2]
  | ev :: rest, h, h1, snaps, hs => by
    simp only [specRun] at hs
    cases hsrc : sources[ev.1]? with
    | none => simp [hsrc] at hs
    | some src =>
      simp only [hsrc] at hs
      cases he : specEvent src ev.2 h with
      | none => simp [he] at hs
      | some r =>
        obtain ⟨h2, snap⟩ := r
        simp only [he] at hs
        cases hr : specRun sources h2 rest with
        | none => simp [hr] at hs
        | some r2 =>
          obtain ⟨h3, snaps2⟩ := r2
          simp only [hr, Option.some.injEq, Prod.mk.injEq] at hs
          have ih := specRun_length sources rest h2 h3 snaps2 hr
          obtain ⟨loc, h4, hl, hlen⟩ := specEvent_snapshot src ev.2 h h2 snap he
          rw [← hs.2]
          simp only [specLocated, hsrc, he, hl, List.length_append, ih, hlen]

theorem specRun_pure (sources : List Source) (locate : Nat → Data → Option Nat)
    (apply : Nat → Data → Data → Data) (Inv : Heap → Prop) :
    ∀ (events : List (Nat × Data)) (h : Heap), Inv h →
      PureRules sources locate apply Inv events →
      ∃ h1, specRun sources h events
        = some (h1, (pureRun locate apply h events).map Prod.snd)
  | [], h, _, _ => ⟨h, by simp [specRun, pureRun]⟩
  | ev :: rest, h, hinv, hp => by
    obtain ⟨src, hsrc, hev⟩ := hp ev (List.mem_cons_self _ _)
    have hrest : PureRules sources locate apply Inv rest :=
      fun e he => hp e (List.mem_cons_of_mem _ he)
    have hev1 := hev h hinv
    cases hl : locate ev.1 ev.2 with
    | none =>
      simp only [hl] at hev1
      obtain ⟨h1, hr⟩ := specRun_pure sources locate apply Inv rest h hinv hrest
      exact ⟨h1, by simp [specRun, pureRun, hsrc, hev1, hl, hr]⟩
    | some a =>
      simp only [hl] at hev1
      obtain ⟨h1, hr⟩ := specRun_pure sources locate apply Inv rest _ hev1.2 hrest
      exact ⟨h1, by simp [specRun, pureRun, hsrc, hev1.1, hl, hr]⟩

theorem scanl_eq_cons_tail {α β : Type} (f : α → β → α) (x : α) (l : List β) :
    List.scanl f x l = x :: (List.scanl f x l).tail := by
  cases l <;> simp [List.scanl]

theorem pureRun_accumulates (locate : Nat → Data → Option Nat)
    (apply : Nat → Data → Data → Data) (a : Nat) :
    ∀ (events : List (Nat × Data)) (h : Heap),
      ((pureRun locate apply h events).filter (fun p => p.1 = a)).map Prod.snd
        = (List.scanl (fun m ev => apply ev.1 m ev.2) (h a)
            (events.filter (fun ev => locate ev.1 ev.2 = some a))).tail
  | [], h => by simp [pureRun, List.scanl]
  | ev :: rest, h => by
    cases hl : locate ev.1 ev.2 with
    | none =>
      simp [pureRun, hl, List.filter_cons, pureRun_accumulates locate apply a rest h]
    | some b =>
      by_cases hb : b = a
      · subst hb
        have ih := pureRun_accumulates locate apply b rest
          (h.store b (apply ev.1 (h b) ev.2))
        simp only [Heap.store, if_true] at ih
        simp only [pureRun, hl, List.filter_cons, decide_True, if_true, List.map_cons,
          List.scanl, List.tail_cons]
        rw [scanl_eq_cons_tail, ← ih]
      · have ih := pureRun_accumulates locate apply a rest
          (h.store b (apply ev.1 (h b) ev.2))
        have hne : a ≠ b := fun h => hb h.symm
        simp only [Heap.store, if_neg hne] at ih
        simp [pureRun, hl, List.filter_cons, hb, ih, Heap.store]

theorem Dispatchable_wellTyped (I : GoType → GoType → Bool) (M : GoType) (src : Source)
    (h : Dispatchable I M src) : WellTyped I M src := by
  obtain ⟨E, R, ft, f, hE, _, _, _, _, hRk, hRe, hmodel⟩ := h
  rcases hmodel with ⟨a, hm⟩ | ⟨t, g, P, hm, hk, hP, _, hA, houts⟩
  · exact Or.inl ⟨R, a, hm, hRk, hRe⟩
  · cases hi : src.Input with
    | none => simp [Source.recvType, hi, TypeOf] at hE
    | some i =>
      simp [Source.recvType, hi, TypeOf] at hE
      exact Or.inr ⟨t, .fn g, i, E, P, R, hm, hk, hi, hE, hP, hA, houts, hRk, hRe⟩

theorem Validate_dispatchable (I : GoType → GoType → Bool) (M : GoType) (output : Iface)
    (sources : List Source) (ho : PtrToChanOf output M) (ht : ∀ src ∈ sources, Dispatchable I M src) :
    Validate I output sources = .ok none := by
  rw [Validate_eq_validateSources I ho]
  have h := validateSources_append I M sources []
    (fun s hs => validateSource_wellTyped I M s (Dispatchable_wellTyped I M s (ht s hs)))
  simpa [validateSources] using h

theorem testSources_pure : PureRules testSources testLocate testApply personAt1 lookupEvents := by
  intro ev hev
  simp only [lookupEvents, List.mem_cons, List.mem_singleton, List.not_mem_nil, or_false] at hev
  rcases hev with rfl | rfl | rfl
  · refine ⟨⟨chanOf NameUpdate 1, some ⟨ApplyNameUpdateType, .fn ApplyNameUpdate⟩,
      some ⟨ByIdType, .fn (ById testPeople)⟩⟩, rfl, ?_⟩
    rintro h ⟨name, age, hh⟩
    have hl : testLocate 0 (.record [.int 123, .str "Anne"]) = some 1 := by decide
    simp only [hl]
    refine ⟨?_, "Anne", age, ?_⟩
    · simp [specEvent, specLocate, Source.recvType, TypeOf, chanOf, GoType.elem?, ByIdType,
        GoType.ins, GoTypes.toList, GoTypes.ofList, RValue.assignTo, RValue.load, ById,
        Data.record, DataList.ofList, testPeople, List.lookup, ApplyNameUpdate, hh, person,
        testApply, Ider, NameUpdate, GoType.Kind, Heap.store, pure, Except.pure]
    · simp [Heap.store, testApply, hh, person, Data.record, DataList.ofList]
  · refine ⟨⟨chanOf AgeUpdate 2, some ⟨ApplyAgeUpdateType, .fn ApplyAgeUpdate⟩,
      some ⟨ByIdType, .fn (ById testPeople)⟩⟩, rfl, ?_⟩
    rintro h ⟨name, age, hh⟩
    have hl : testLocate 1 (.record [.int 999]) = none := by decide
    simp only [hl]
    simp [specEvent, specLocate, Source.recvType, TypeOf, chanOf, GoType.elem?, ByIdType,
      GoType.ins, GoTypes.toList, GoTypes.ofList, RValue.assignTo, RValue.load, ById,
      Data.record, DataList.ofList, testPeople, List.lookup, Ider, AgeUpdate, GoType.Kind,
      pure, Except.pure]
  · refine ⟨⟨chanOf AgeUpdate 2, some ⟨ApplyAgeUpdateType, .fn ApplyAgeUpdate⟩,
      some ⟨ByIdType, .fn (ById testPeople)⟩⟩, rfl, ?_⟩
    rintro h ⟨name, age, hh⟩
    have hl : testLocate 1 (.record [.int 123]) = some 1 := by decide
    simp only [hl]
    refine ⟨?_, name, wrap64 (age + 1), ?_⟩
    · simp [specEvent, specLocate, Source.recvType, TypeOf, chanOf, GoType.elem?, ByIdType,
        GoType.ins, GoTypes.toList, GoTypes.ofList, RValue.assignTo, RValue.load, ById,
        Data.record, DataList.ofList, testPeople, List.lookup, ApplyAgeUpdate, hh, person,
        testApply, Ider, AgeUpdate, GoType.Kind, Heap.store, pure, Except.pure]
    · simp [Heap.store, testApply, hh, person, Data.record, DataList.ofList]

/-! ## The claims -/

/-- C1: a dispatcher with the single source `src`, whose model is the fixed
non-nil pointer `a` to `M` and whose update rule `f` has type `func(*M, X)`, on
an output channel of element type `M`: the source is accepted by `Validate`;
before any value is received nothing has been sent; and on receiving `v` the
dispatcher applies `f` to the pointer and `v` and then has sent exactly one
snapshot, the value `h1 a` the model holds after that application. -/
theorem dispatcher_fixed_pointer (I : GoType → GoType → Bool) (M X pt ft : GoType)
    (input : Iface) (f : GoFunc) (a id : Nat) (h h1 : Heap) (v : Data) (res : List Data)
    (ct : GoType) (hck : ct.Kind = .Chan) (hce : ct.elem? = some M)
    (hcd : ct.ChanDir? = some .BothDir)
    (hpt : pt.Kind = .Ptr) (hM : pt.elem? = some M)
    (hft : ft.Kind = .Func) (hins : ft.ins = [pt, X]) (hvar : ft.IsVariadic = false)
    (hf : f [.ptr a, v] h = .ok (res, h1)) :
    let src : Source := ⟨input, some ⟨ft, .fn f⟩, some ⟨pt, .data (.ptr a)⟩⟩
    let wk : Worker := ⟨[src], .direct ⟨ct, .data (.chan id)⟩⟩
    validateSource I M src = .ok none
    ∧ dispatcher I wk h [] = .ok ⟨h, []⟩
    ∧ dispatcher I wk h [⟨0, .direct ⟨X, .data v⟩, true⟩] = .ok ⟨h1, [h1 a]⟩ := by
  intro src wk
  refine ⟨?_, rfl, ?_⟩
  · rw [validateSource_pointer I M M pt a src rfl hpt hM]; simp
  · simp [dispatcher, run, iteration, wk, src, Source.getTarget, ValueOf, RValue.Kind, hpt, hft,
      RValue.Call, hins, hvar, checkArgs, RValue.Type, AssignableTo_refl, RValue.assignTo,
      RValue.load, hf, RValue.Elem, Elem_of_elem? hM, RValue.Send, Elem_of_elem? hce, hck, hcd,
      Kind_ne_Invalid, bind, Except.bind, pure, Except.pure]

/-- The two update tests: `{Jeff,56}` with `SetName` and "Fishy Bob" publishes
`{Fishy Bob,56}`, and with `UpdatePersonAge` and 57 publishes `{Jeff,57}`. -/
theorem dispatcher_fixed_pointer_witness :
    dispatcher testImplements
        ⟨[⟨chanOf .string 3, some ⟨SetNameType, .fn SetName⟩, addrOf Person 1⟩],
          .direct ⟨.chan .BothDir Person, .data (.chan 0)⟩⟩ jeffHeap
        [⟨0, .direct ⟨.string, .data (.str "Fishy Bob")⟩, true⟩]
      = .ok ⟨jeffHeap.store 1 (person "Fishy Bob" 56), [person "Fishy Bob" 56]⟩
    ∧ dispatcher testImplements
        ⟨[⟨chanOf .int 4, some ⟨UpdatePersonAgeType, .fn UpdatePersonAge⟩, addrOf Person 1⟩],
          .direct ⟨.chan .BothDir Person, .data (.chan 0)⟩⟩ jeffHeap
        [⟨0, .direct ⟨.int, .data (.int 57)⟩, true⟩]
      = .ok ⟨jeffHeap.store 1 (person "Jeff" 57), [person "Jeff" 57]⟩ :=
  ⟨(dispatcher_fixed_pointer testImplements Person .string (.ptr Person) SetNameType
      (chanOf .string 3) SetName 1 0 jeffHeap (jeffHeap.store 1 (person "Fishy Bob" 56))
      (.str "Fishy Bob") [] (.chan .BothDir Person) rfl rfl rfl rfl rfl rfl rfl rfl rfl).2.2,
   (dispatcher_fixed_pointer testImplements Person .int (.ptr Person) UpdatePersonAgeType
      (chanOf .int 4) UpdatePersonAge 1 0 jeffHeap (jeffHeap.store 1 (person "Jeff" 57))
      (.int 57) [] (.chan .BothDir Person) rfl rfl rfl rfl rfl rfl rfl rfl rfl).2.2⟩

/-- C2: for an output that is a pointer to a channel of element type `M` and
sources that are all well typed (the model a non-nil pointer to `M`, or a
function of one parameter the input element type is assignable to, returning a
pointer to `M` and a `bool`), `Validate` returns the nil error. -/
theorem Validate_well_typed (I : GoType → GoType → Bool) (output : Iface) (M : GoType)
    (sources : List Source) (ho : PtrToChanOf output M)
    (hs : ∀ s ∈ sources, WellTyped I M s) :
    Validate I output sources = .ok none := by
  rw [Validate_eq_validateSources I ho]
  have h := validateSources_append I M sources []
    (fun s hmem => validateSource_wellTyped I M s (hs s hmem))
  simpa [validateSources] using h

/-- The sources of the three tests that start a dispatcher, with the output `&out`. -/
theorem Validate_well_typed_witness :
    Validate testImplements (addrOf (.chan .BothDir Person) 0) testSources = .ok none :=
  Validate_well_typed testImplements (addrOf (.chan .BothDir Person) 0) Person testSources
    ⟨_, _, rfl, rfl, rfl, rfl, rfl⟩
    (by
      intro s hmem
      simp only [testSources, List.mem_cons, List.mem_singleton, List.not_mem_nil, or_false]
        at hmem
      rcases hmem with rfl | rfl | rfl | rfl
      · exact Or.inr ⟨_, _, _, NameUpdate, Ider, .ptr Person, rfl, rfl, rfl, rfl, rfl,
          by decide, rfl, rfl, rfl⟩
      · exact Or.inr ⟨_, _, _, AgeUpdate, Ider, .ptr Person, rfl, rfl, rfl, rfl, rfl,
          by decide, rfl, rfl, rfl⟩
      · exact Or.inl ⟨_, _, rfl, rfl, rfl⟩
      · exact Or.inl ⟨_, _, rfl, rfl, rfl⟩)

/-- C3: for an output whose type is not a pointer, `Validate` returns the error
"Output must be a pointer", whatever the sources are. -/
theorem Validate_output_not_pointer (I : GoType → GoType → Bool) (v : TVal)
    (sources : List Source) (h : v.typ.Kind ≠ .Ptr) :
    Validate I (some v) sources = .ok (some (Err "Output must be a pointer" [])) := by
  simp [Validate, TypeOf, deref, h, bind, Except.bind, pure, Except.pure]

/-- The output `out` of type `chan Person` passed by value, with nil sources. -/
theorem Validate_output_not_pointer_witness :
    Validate testImplements (chanOf Person 0) []
      = .ok (some (Err "Output must be a pointer" [])) :=
  Validate_output_not_pointer testImplements _ [] (by decide)

/-- C4: for an output whose type is a pointer to a type that is not a channel,
`Validate` returns the error "Output must be a pointer to a channel", whatever
the sources are, and that error differs from the one for a non-pointer output. -/
theorem Validate_output_pointer_to_non_chan (I : GoType → GoType → Bool) (v : TVal)
    (e : GoType) (sources : List Source) (hp : v.typ.Kind = .Ptr) (he : v.typ.elem? = some e)
    (hc : e.Kind ≠ .Chan) :
    Validate I (some v) sources = .ok (some (Err "Output must be a pointer to a channel" []))
    ∧ Err "Output must be a pointer to a channel" [] ≠ Err "Output must be a pointer" [] := by
  refine ⟨?_, by decide⟩
  simp [Validate, TypeOf, deref, hp, Elem_of_elem? he, hc, bind, Except.bind, pure, Except.pure]

/-- The output `&out` with `out` of type `string`, with nil sources. -/
theorem Validate_output_pointer_to_non_chan_witness :
    Validate testImplements (addrOf .string 0) []
      = .ok (some (Err "Output must be a pointer to a channel" []))
    ∧ Err "Output must be a pointer to a channel" [] ≠ Err "Output must be a pointer" [] :=
  Validate_output_pointer_to_non_chan testImplements _ .string [] rfl rfl (by decide)

/-- C5: for an output that is a pointer to a channel of element type `M`, when
the first source that is not accepted has as model a non-nil pointer to a type
`T` other than `M`, `Validate` returns the type-mismatch error, whose text names
`M` as the type wanted and `T` as the type got, whatever sources follow. -/
theorem Validate_model_type_mismatch (I : GoType → GoType → Bool) (output : Iface)
    (M T t : GoType) (a : Nat) (pre rest : List Source) (src : Source)
    (ho : PtrToChanOf output M) (hpre : ∀ s ∈ pre, validateSource I M s = .ok none)
    (hm : src.Model = some ⟨t, .data (.ptr a)⟩) (hk : t.Kind = .Ptr) (he : t.elem? = some T)
    (hne : T ≠ M) :
    Validate I output (pre ++ src :: rest)
      = .ok (some (Err "Differing target types, want %v got %v" [M.String, T.String]))
    ∧ (Err "Differing target types, want %v got %v" [M.String, T.String]).Error
      = "Differing target types, want " ++ M.String ++ " got " ++ T.String := by
  refine ⟨?_, by simp [Err, Error.Error, Sprintf_want_got]⟩
  rw [Validate_eq_validateSources I ho]
  apply validateSources_first_error I M pre rest src _ hpre
  rw [validateSource_pointer I M T t a src hm hk he]
  simp [Ne.symm hne]

/-- An accepted source, then a source whose model is a `*string`, then more sources. -/
theorem Validate_model_type_mismatch_witness :
    Validate testImplements (addrOf (.chan .BothDir Person) 0)
        ([⟨chanOf .string 3, some ⟨SetNameType, .fn SetName⟩, addrOf Person 1⟩]
          ++ ⟨chanOf .string 5, none, addrOf .string 7⟩ :: testSources)
      = .ok (some (Err "Differing target types, want %v got %v"
          [Person.String, GoType.string.String]))
    ∧ (Err "Differing target types, want %v got %v"
          [Person.String, GoType.string.String]).Error
      = "Differing target types, want " ++ Person.String ++ " got " ++ GoType.string.String :=
  Validate_model_type_mismatch testImplements _ Person .string (.ptr .string) 7 _ _ _
    ⟨_, _, rfl, rfl, rfl, rfl, rfl⟩
    (by
      intro s hmem
      simp only [List.mem_singleton] at hmem
      subst hmem
      rfl)
    rfl rfl rfl (by decide)

/-- C6 at the failing input: `Validate` accepts a source whose model is a
resolver `func(string) ([]Person, bool)`, whose first result is not a pointer. -/
theorem Validate_accepts_slice_resolver :
    Validate testImplements testOutput [sliceResolverSource] = .ok none := by
  decide

/-- C7: for an output that is a pointer to a channel, when the first source that
is not accepted has a model whose kind is neither pointer nor function,
`Validate` returns the error "Target must be a pointer or func(X)(*Model,bool),
not ..." ending in the printed model, whatever sources follow. -/
theorem Validate_model_wrong_kind (I : GoType → GoType → Bool) (output : Iface) (M : GoType)
    (pre rest : List Source) (src : Source) (ho : PtrToChanOf output M)
    (hpre : ∀ s ∈ pre, validateSource I M s = .ok none)
    (hp : (ValueOf src.Model).Kind ≠ .Ptr) (hf : (ValueOf src.Model).Kind ≠ .Func) :
    Validate I output (pre ++ src :: rest)
      = .ok (some (Err ("Target must be a pointer or func(X)(*Model,bool), not "
          ++ (ValueOf src.Model).String) [])) := by
  rw [Validate_eq_validateSources I ho]
  exact validateSources_first_error I M pre rest src _ hpre
    (validateSource_wrong_kind I M src hp hf)

/-- The source of the test: the model `Person{}`, a struct value. -/
theorem Validate_model_wrong_kind_witness :
    Validate testImplements (addrOf (.chan .BothDir Person) 0)
        ([] ++ ⟨chanOf .string 1, some ⟨SetNameType, .fn SetName⟩,
          some ⟨Person, .data (person "" 0)⟩⟩ :: [])
      = .ok (some (Err ("Target must be a pointer or func(X)(*Model,bool), not "
          ++ (ValueOf (some ⟨Person, .data (person "" 0)⟩)).String) [])) :=
  Validate_model_wrong_kind testImplements _ Person [] [] _ ⟨_, _, rfl, rfl, rfl, rfl, rfl⟩
    (by intro s hmem; cases hmem) (by decide) (by decide)

/-- C8 fails as stated: a source whose `Update` is the `int` 42, with a well-typed
`Input` and `Model`, is accepted by `Validate`. -/
theorem Validate_accepts_non_function_Update :
    (ValueOf intUpdateSource.Update).Kind = .Int
    ∧ Validate testImplements testOutput [intUpdateSource] = .ok none := by
  decide

/-- C8 (as amended): `Validate` does not examine the update rule: its result is
unchanged when the `Update` of every source is replaced by any value whatever. -/
theorem Validate_ignores_Update (I : GoType → GoType → Bool) (output : Iface) (u : Source → Iface)
    (sources : List Source) :
    Validate I output (sources.map (fun s => { s with Update := u s }))
      = Validate I output sources := by
  simp only [Validate, validateSources_map_Update]

/-- C9 at the failing inputs: `Validate` panics, instead of returning, for a
resolver whose first result type is not a pointer, for a nil output, for a
function model with a nil or a non-channel `Input`, and for a nil pointer model. -/
theorem Validate_panics :
    Validate testImplements testOutput [structResolverSource]
      = .error (.ofString "reflect: Elem of invalid type junction_test.Person")
    ∧ Validate testImplements none []
      = .error (.ofString "runtime error: invalid memory address or nil pointer dereference")
    ∧ Validate testImplements testOutput [nilInputSource]
      = .error (.ofString "runtime error: invalid memory address or nil pointer dereference")
    ∧ Validate testImplements testOutput [intInputSource]
      = .error (.ofString "reflect: Elem of invalid type int")
    ∧ Validate testImplements testOutput [nilPointerSource]
      = .error (.ofString "reflect: call of reflect.Value.Type on zero Value") := by
  decide

/-- C10: when `Validate` returns the error `e`, `New` panics with exactly `e` and
leaves the program state as it was: the location `output` points to is not
written, no channel is made and no goroutine is started. -/
theorem New_panics_with_validation_error (I : GoType → GoType → Bool) (output : Iface)
    (sources : List Source) (w : World) (e : Error)
    (h : Validate I output sources = .ok (some e)) :
    New I output sources w = (some (.ofError e), w) := by
  simp [New, h]

/-- The call `New(out, nil)` with `out` a `chan Person` passed by value. -/
theorem New_panics_with_validation_error_witness :
    New testImplements (chanOf Person 0) [] testWorld
      = (some (.ofError (Err "Output must be a pointer" [])), testWorld) :=
  New_panics_with_validation_error testImplements (chanOf Person 0) [] testWorld _ (by decide)

/-- C11: for an output and sources `Validate` accepts, whenever `New` returns:
the output is a non-nil pointer to a bidirectional channel type `ct`, the
location it points to holds a new, non-nil channel, that channel has type `ct`
(so the element type of the destination) and capacity 0, nothing else in
memory changes, and the goroutine started holds that same channel. `New` does
return whenever the output is a non-nil pointer to a bidirectional channel. -/
theorem New_installs_channel (I : GoType → GoType → Bool) (output : Iface)
    (sources : List Source) (w : World) (hv : Validate I output sources = .ok none) :
    (∀ w', New I output sources w = (none, w') →
      ∃ ot ct a, output = some ⟨ot, .data (.ptr a)⟩ ∧ ot.Kind = .Ptr ∧ ot.elem? = some ct ∧
        ct.Kind = .Chan ∧ ct.ChanDir? = some .BothDir ∧
        w'.heap = w.heap.store a (.chan w.chans.length) ∧
        w'.heap a = .chan w.chans.length ∧
        w'.chans = w.chans ++ [⟨ct, 0⟩] ∧
        w'.chans[w.chans.length]? = some ⟨ct, 0⟩ ∧
        w'.workers = w.workers ++ [⟨sources, .direct ⟨ct, .data (.chan w.chans.length)⟩⟩])
    ∧ (∀ ot ct a, output = some ⟨ot, .data (.ptr a)⟩ → ot.elem? = some ct →
        ct.ChanDir? = some .BothDir → ∃ w', New I output sources w = (none, w')) := by
  obtain ⟨M, ⟨v, ct, rfl, hp, he, hc, hm⟩, _⟩ := Validate_accepts_inv I output sources none hv rfl
  obtain ⟨ot, p⟩ := v
  simp only at hp he
  constructor
  · intro w' hn
    simp only [New, hv] at hn
    cases hmk : makeOutputChan I (some ⟨ot, p⟩) w with
    | error e => simp [hmk] at hn
    | ok r =>
      obtain ⟨a, rfl, hd, rfl⟩ := (makeOutputChan_ok_iff I ot ct p w r hp he hc).mp hmk
      simp [hmk] at hn
      subst hn
      exact ⟨ot, ct, a, rfl, hp, he, hc, hd, rfl, by simp [Heap.store], rfl, by simp, rfl⟩
  · intro ot' ct' a ho he' hd
    injection ho with ho
    injection ho with h1 h2
    subst h1 h2
    rw [he] at he'
    injection he' with he'
    subst he'
    have hmk := (makeOutputChan_ok_iff I ot ct (.data (.ptr a)) w _ hp he hc).mpr ⟨a, rfl, hd, rfl⟩
    refine ⟨⟨w.heap.store a (.chan w.chans.length), w.chans ++ [⟨ct, 0⟩],
      w.workers ++ [⟨sources, .direct ⟨ct, .data (.chan w.chans.length)⟩⟩]⟩, ?_⟩
    simp only [New, hv, hmk]

/-- The test `var out chan Person; New(&out, nil)`: `out` is no longer nil. -/
theorem New_installs_channel_witness :
    ∃ w', New testImplements testOutput [] testWorld = (none, w') ∧ w'.heap 0 = .chan 0
      ∧ w'.chans = [⟨.chan .BothDir Person, 0⟩]
      ∧ w'.workers = [⟨[], .direct ⟨.chan .BothDir Person, .data (.chan 0)⟩⟩] := by
  have h := New_installs_channel testImplements testOutput [] testWorld (by decide)
  obtain ⟨w', hw⟩ := h.2 (.ptr (.chan .BothDir Person)) (.chan .BothDir Person) 0 rfl rfl rfl
  obtain ⟨ot, ct, a, ho, _, he, _, _, _, hat, hch, _, hwk⟩ := h.1 w' hw
  injection ho with ho
  injection ho with h1 h2
  injection h2 with h2
  injection h2 with h2
  subst h1 h2
  injection he with he
  subst he
  exact ⟨w', hw, hat, hch, hwk⟩

/-- C12: a pass of the dispatcher for an accepted source whose model is the
resolver `g`, on a received value for which `g` reports not found: whatever
the update rule of the source is (it is not called), the pass ends normally,
nothing is sent, and memory is as the lookup left it: unchanged when the
lookup writes nothing. -/
theorem dispatcher_resolver_not_found (I : GoType → GoType → Bool) (M E P t : GoType)
    (sources : List Source) (src : Source) (channel : RValue) (st : DState) (i : Nat)
    (g : GoFunc) (inp : TVal) (v r0 : Data) (h1 : Heap)
    (hsrc : sources[i]? = some src)
    (hm : src.Model = some ⟨t, .fn g⟩) (hk : t.Kind = .Func)
    (hi : src.Input = some inp) (he : inp.typ.elem? = some E)
    (hacc : validateSource I M src = .ok none)
    (hP : t.ins = [P]) (hvar : t.IsVariadic = false)
    (hg : g [(RValue.direct ⟨E, .data v⟩).assignTo st.heap E P] st.heap
      = .ok ([r0, .bool false], h1)) :
    iteration I sources channel st ⟨i, .direct ⟨E, .data v⟩, true⟩ = .ok ⟨h1, st.sent⟩
    ∧ (h1 = st.heap → iteration I sources channel st ⟨i, .direct ⟨E, .data v⟩, true⟩ = .ok st) := by
  obtain ⟨P', R0, hins, hA, houts, _⟩ :=
    (validateSource_func I M E t (.fn g) inp src hm hk hi he).mp hacc
  rw [hP] at hins
  injection hins with hins _
  subst hins
  have hmain : iteration I sources channel st ⟨i, .direct ⟨E, .data v⟩, true⟩
      = .ok ⟨h1, st.sent⟩ := by
    have hkp : t.Kind ≠ .Ptr := by rw [hk]; decide
    simp [iteration, hsrc, Source.getTarget, hm, ValueOf, RValue.Kind, hk, RValue.Call, hP, hvar,
      Kind_ne_Invalid, checkArgs, RValue.Type, hA, hg, houts, RValue.assertBool, bind, Except.bind,
      pure, Except.pure]
  refine ⟨hmain, ?_⟩
  intro h
  rw [hmain, h]

/-- A name update for the id 999, which `people` does not hold. -/
theorem dispatcher_resolver_not_found_witness :
    iteration testImplements testSources testChannel ⟨peopleHeap, []⟩
        ⟨0, .direct ⟨NameUpdate, .data (.record [.int 999, .str "Zed"])⟩, true⟩
      = .ok ⟨peopleHeap, []⟩ :=
  (dispatcher_resolver_not_found testImplements Person NameUpdate Ider ByIdType testSources
    ⟨chanOf NameUpdate 1, some ⟨ApplyNameUpdateType, .fn ApplyNameUpdate⟩,
      some ⟨ByIdType, .fn (ById testPeople)⟩⟩
    testChannel ⟨peopleHeap, []⟩ 0 (ById testPeople) ⟨.chan .BothDir NameUpdate, .data (.chan 1)⟩
    (.record [.int 999, .str "Zed"]) .nil peopleHeap rfl rfl rfl rfl rfl (by decide) rfl rfl
    rfl).1

/-- C13: a pass of the dispatcher for a source whose model is a lookup resolver
`g` and whose update rule `f` has type `func(*M, E)`, on a value keyed to X:
when the lookup yields the pointer `ax` to the model of X and `f` writes only the
model it is given, the one snapshot sent is the value of the model of X after
the update, and the model of any other id Y, at an address `ay` other than `ax`,
is as it was. -/
theorem dispatcher_keyed_update_frame (I : GoType → GoType → Bool) (M E P R0 t ft ct : GoType)
    (sources : List Source) (src : Source) (st : DState) (i id : Nat)
    (g f : GoFunc) (inp : TVal) (v : Data) (ax ay : Nat) (h1 h2 : Heap) (res : List Data)
    (hsrc : sources[i]? = some src)
    (hm : src.Model = some ⟨t, .fn g⟩) (hk : t.Kind = .Func)
    (hi : src.Input = some inp) (he : inp.typ.elem? = some E)
    (hacc : validateSource I M src = .ok none)
    (hP : t.ins = [P]) (hvar : t.IsVariadic = false)
    (hR0 : t.outs = [R0, .bool]) (hR0k : R0.Kind = .Ptr)
    (hu : src.Update = some ⟨ft, .fn f⟩) (hft : ft.Kind = .Func) (hfins : ft.ins = [R0, E])
    (hfvar : ft.IsVariadic = false)
    (hck : ct.Kind = .Chan) (hce : ct.elem? = some M) (hcd : ct.ChanDir? = some .BothDir)
    (hg : g [(RValue.direct ⟨E, .data v⟩).assignTo st.heap E P] st.heap
      = .ok ([.ptr ax, .bool true], h1))
    (hf : f [.ptr ax, v] h1 = .ok (res, h2))
    (hframe : ∀ b, b ≠ ax → h2 b = h1 b)
    (hxy : ay ≠ ax) :
    iteration I sources (.direct ⟨ct, .data (.chan id)⟩) st ⟨i, .direct ⟨E, .data v⟩, true⟩
      = .ok ⟨h2, st.sent ++ [h2 ax]⟩
    ∧ h2 ay = h1 ay := by
  obtain ⟨P', R0', hins, hA, houts, hR0e⟩ :=
    (validateSource_func I M E t (.fn g) inp src hm hk hi he).mp hacc
  rw [hP] at hins
  injection hins with hins _
  subst hins
  rw [hR0] at houts
  injection houts with houts _
  subst houts
  refine ⟨?_, hframe ay hxy⟩
  have hkp : t.Kind ≠ .Ptr := by rw [hk]; decide
  simp only [RValue.assignTo, RValue.load] at hg
  simp [iteration, hsrc, Source.getTarget, hm, hu, ValueOf, RValue.Kind, hk, RValue.Call, hP, hvar,
    Kind_ne_Invalid, checkArgs, RValue.Type, hA, hg, hR0, RValue.assertBool, hft, hfins, hfvar,
    AssignableTo_refl, RValue.assignTo, RValue.load, hf, RValue.Elem, hR0k, Elem_of_elem? hR0e,
    RValue.Send, hck, hcd, Elem_of_elem? hce, bind, Except.bind, pure, Except.pure]

/-- The test: a name update for 123 publishes `{Anne,23}` and leaves 456 at
`{Bob,21}`; later an age increment for 456 publishes `{Bob,22}` and leaves 123 at
`{Anne,24}`. -/
theorem dispatcher_keyed_update_frame_witness :
    (iteration testImplements testSources testChannel ⟨peopleHeap, []⟩
        ⟨0, .direct ⟨NameUpdate, .data (.record [.int 123, .str "Anne"])⟩, true⟩
      = .ok ⟨peopleHeap.store 1 (person "Anne" 23), [person "Anne" 23]⟩
      ∧ (peopleHeap.store 1 (person "Anne" 23)) 2 = person "Bob" 21)
    ∧ (iteration testImplements testSources testChannel ⟨anneHeap, []⟩
        ⟨1, .direct ⟨AgeUpdate, .data (.record [.int 456])⟩, true⟩
      = .ok ⟨anneHeap.store 2 (person "Bob" 22), [person "Bob" 22]⟩
      ∧ (anneHeap.store 2 (person "Bob" 22)) 1 = person "Anne" 24) :=
  ⟨dispatcher_keyed_update_frame testImplements Person NameUpdate Ider (.ptr Person) ByIdType
      ApplyNameUpdateType (.chan .BothDir Person) testSources
      ⟨chanOf NameUpdate 1, some ⟨ApplyNameUpdateType, .fn ApplyNameUpdate⟩,
        some ⟨ByIdType, .fn (ById testPeople)⟩⟩
      ⟨peopleHeap, []⟩ 0 0 (ById testPeople) ApplyNameUpdate
      ⟨.chan .BothDir NameUpdate, .data (.chan 1)⟩ (.record [.int 123, .str "Anne"]) 1 2
      peopleHeap (peopleHeap.store 1 (person "Anne" 23)) []
      rfl rfl rfl rfl rfl (by decide) rfl rfl rfl rfl rfl rfl rfl rfl rfl rfl rfl rfl rfl
      (fun b hb => by simp [Heap.store, hb]) (by decide),
   dispatcher_keyed_update_frame testImplements Person AgeUpdate Ider (.ptr Person) ByIdType
      ApplyAgeUpdateType (.chan .BothDir Person) testSources
      ⟨chanOf AgeUpdate 2, some ⟨ApplyAgeUpdateType, .fn ApplyAgeUpdate⟩,
        some ⟨ByIdType, .fn (ById testPeople)⟩⟩
      ⟨anneHeap, []⟩ 1 0 (ById testPeople) ApplyAgeUpdate
      ⟨.chan .BothDir AgeUpdate, .data (.chan 2)⟩ (.record [.int 456]) 2 1
      anneHeap (anneHeap.store 2 (person "Bob" 22)) []
      rfl rfl rfl rfl rfl (by decide) rfl rfl rfl rfl rfl rfl rfl rfl rfl rfl rfl rfl rfl
      (fun b hb => by simp [Heap.store, hb]) (by decide)⟩

/-- C14: for sources that can be dispatched, which `Validate` accepts, and an
output channel of element type `M`: the dispatcher processes the events exactly
when no resolver or update rule panics on the way, and it then leaves the memory
and has sent, after what was sent before, the snapshots the specification gives,
in the order of the events: one for each event that locates a model (a fixed
pointer, or a resolver reporting found), equal to the value of that model once
the update rule of the event has been applied to the memory the earlier events
left. The number of snapshots sent is the number of events that locate a model.
For sources that act on their models only, the snapshots of the model at an
address are the successive values of folding the update rules over the events
that locate it. With no sources the goroutine never sends: it stays in its
first wait. -/
theorem run_publishes (I : GoType → GoType → Bool) (M ct : GoType) (id : Nat)
    (output : Iface) (sources : List Source) (events : List (Nat × Data)) (st : DState)
    (ho : PtrToChanOf output M) (ht : ∀ src ∈ sources, Dispatchable I M src)
    (hck : ct.Kind = .Chan) (hce : ct.elem? = some M) (hcd : ct.ChanDir? ≠ some .RecvDir) :
    Validate I output sources = .ok none
    ∧ (run I sources (.direct ⟨ct, .data (.chan id)⟩) st
          (events.map (received sources))).toOption
        = (specRun sources st.heap events).map (fun r => ⟨r.1, st.sent ++ r.2⟩)
    ∧ (∀ st1, run I sources (.direct ⟨ct, .data (.chan id)⟩) st (events.map (received sources))
          = .ok st1 →
        st1.sent.length = st.sent.length + specLocated sources st.heap events)
    ∧ (∀ (locate : Nat → Data → Option Nat) (apply : Nat → Data → Data → Data)
        (Inv : Heap → Prop), Inv st.heap → PureRules sources locate apply Inv events →
        (∃ h1, run I sources (.direct ⟨ct, .data (.chan id)⟩) st (events.map (received sources))
          = .ok ⟨h1, st.sent ++ (pureRun locate apply st.heap events).map Prod.snd⟩)
        ∧ ∀ a, ((pureRun locate apply st.heap events).filter (fun p => p.1 = a)).map Prod.snd
            = (List.scanl (fun m ev => apply ev.1 m ev.2) (st.heap a)
                (events.filter (fun ev => locate ev.1 ev.2 = some a))).tail)
    ∧ (∀ (g : GState) (picks : List Nat),
        (goroutine I [] (.direct ⟨ct, .data (.chan id)⟩) g picks).1.sent = g.sent) := by
  have href := run_refines_specRun I M ct id sources ht hck hce hcd events st
  refine ⟨Validate_dispatchable I M output sources ho ht, href, ?_, ?_, ?_⟩
  · intro st1 hrun
    rw [hrun] at href
    cases hs : specRun sources st.heap events with
    | none => simp [hs, Except.toOption] at href
    | some r =>
      rw [hs] at href
      simp only [Except.toOption, Option.map_some'] at href
      have hsent : st1.sent = st.sent ++ r.2 := by
        have := congrArg DState.sent (Option.some.inj href)
        simpa using this
      rw [hsent, List.length_append, specRun_length sources events st.heap r.1 r.2 hs]
  · intro locate apply Inv hinv hp
    refine ⟨?_, fun a => pureRun_accumulates locate apply a events st.heap⟩
    obtain ⟨h1, hs⟩ := specRun_pure sources locate apply Inv events st.heap hinv hp
    rw [hs] at href
    exact ⟨h1, toOption_eq_some.mp href⟩
  · intro g picks
    rw [(goroutine_no_sources I _ g picks).1]

/-- The test: the sources of the tests can be dispatched; of the name update for
123, an age update for the unknown id 999 and an age update for 123, the first
and the last locate a model; the dispatcher, run on them, sends `{Anne,23}` then
`{Anne,24}`, which are the snapshots of the specification, two snapshots for
three events. The lookup and the two update rules act on their models only, and
the two snapshots are the successive values of folding them over `{Ann,23}`. -/
theorem run_publishes_witness :
    (∀ src ∈ testSources, Dispatchable testImplements Person src)
    ∧ (run testImplements testSources testChannel ⟨peopleHeap, []⟩
          (lookupEvents.map (received testSources))).toOption
        = (specRun testSources peopleHeap lookupEvents).map (fun r => ⟨r.1, [] ++ r.2⟩)
    ∧ (run testImplements testSources testChannel ⟨peopleHeap, []⟩
          (lookupEvents.map (received testSources))).toOption.map DState.sent
        = some [person "Anne" 23, person "Anne" 24]
    ∧ (specRun testSources peopleHeap lookupEvents).map Prod.snd
        = some [person "Anne" 23, person "Anne" 24]
    ∧ specLocated testSources peopleHeap lookupEvents = 2
    ∧ PureRules testSources testLocate testApply personAt1 lookupEvents
    ∧ ((pureRun testLocate testApply peopleHeap lookupEvents).filter (fun p => p.1 = 1)).map
          Prod.snd
        = [person "Anne" 23, person "Anne" 24]
    ∧ (List.scanl (fun m ev => testApply ev.1 m ev.2) (peopleHeap 1)
          (lookupEvents.filter (fun ev => testLocate ev.1 ev.2 = some 1))).tail
        = [person "Anne" 23, person "Anne" 24] := by
  have ht : ∀ src ∈ testSources, Dispatchable testImplements Person src := by
    intro src hs
    simp only [testSources, List.mem_cons, List.mem_singleton, List.not_mem_nil, or_false] at hs
    rcases hs with rfl | rfl | rfl | rfl
    · exact ⟨NameUpdate, .ptr Person, ApplyNameUpdateType, ApplyNameUpdate, rfl, rfl, rfl, rfl,
        rfl, rfl, rfl, Or.inr ⟨ByIdType, ById testPeople, Ider, rfl, rfl, rfl, rfl, by decide, rfl⟩⟩
    · exact ⟨AgeUpdate, .ptr Person, ApplyAgeUpdateType, ApplyAgeUpdate, rfl, rfl, rfl, rfl,
        rfl, rfl, rfl, Or.inr ⟨ByIdType, ById testPeople, Ider, rfl, rfl, rfl, rfl, by decide, rfl⟩⟩
    · exact ⟨.string, .ptr Person, SetNameType, SetName, rfl, rfl, rfl, rfl,
        rfl, rfl, rfl, Or.inl ⟨1, rfl⟩⟩
    · exact ⟨.int, .ptr Person, UpdatePersonAgeType, UpdatePersonAge, rfl, rfl, rfl, rfl,
        rfl, rfl, rfl, Or.inl ⟨1, rfl⟩⟩
  have h := run_publishes testImplements Person (.chan .BothDir Person) 0
    testOutput testSources lookupEvents ⟨peopleHeap, []⟩
    ⟨_, _, rfl, rfl, rfl, rfl, rfl⟩ ht rfl rfl (by decide)
  have hacc := (h.2.2.2.1 testLocate testApply personAt1 ⟨"Ann", 23, rfl⟩ testSources_pure).2 1
  refine ⟨ht, h.2.1, by decide, by decide, rfl, testSources_pure, ?_, ?_⟩
  · rfl
  · rw [← hacc]
    rfl

/-- C15: when the wait of the goroutine returns by a case whose channel is
closed (no value delivered): the receive changed no channel; the body of the
loop panics with "Input closed" whatever the sources, the output channel and
the state are, so before any resolver or update rule is called; and the loop
ends there for all sources, in the state it had at the head of that pass:
memory and the list of snapshots sent are untouched and the later choices `rest`
are never processed. -/
theorem goroutine_input_closed (I : GoType → GoType → Bool) (sources : List Source)
    (channel : RValue) (g : GState) (pick : Nat) (sel : Selected) (env1 : ChanEnv)
    (rest : List Nat)
    (hsel : Select (buildCases sources) g.env pick = .ok (sel, env1))
    (hok : sel.recvOK = false) :
    env1 = g.env
    ∧ (∀ (sources1 : List Source) (channel1 : RValue) (st : DState),
        iteration I sources1 channel1 st sel = .error (.ofString "Input closed"))
    ∧ goroutine I sources channel g (pick :: rest) = (g, some (.ofString "Input closed")) := by
  have hit : ∀ (sources1 : List Source) (channel1 : RValue) (st : DState),
      iteration I sources1 channel1 st sel = .error (.ofString "Input closed") := by
    intro sources1 channel1 st
    simp [iteration, hok, throw, throwThe, MonadExceptOf.throw]
  obtain ⟨src, t, id, E, _, _, _, hcase⟩ := Select_recv_inv sources g.env env1 pick sel hsel
  refine ⟨?_, hit, ?_⟩
  · rcases hcase with ⟨v, q, _, hs, _⟩ | ⟨_, _, _, he⟩
    · rw [hs] at hok
      simp at hok
    · exact he
  · simp [goroutine, loop, pass, hsel, hit, bind, Except.bind]

/-- The closed `names` channel is chosen first; the later choices are not reached. -/
theorem goroutine_input_closed_witness :
    goroutine testImplements testSources testChannel ⟨peopleHeap, closedEnv, []⟩ [0, 1, 1]
      = (⟨peopleHeap, closedEnv, []⟩, some (.ofString "Input closed")) :=
  (goroutine_input_closed testImplements testSources testChannel ⟨peopleHeap, closedEnv, []⟩ 0
    ⟨0, .direct ⟨NameUpdate, .data .nil⟩, false⟩ closedEnv [1, 1] rfl rfl).2.2

/-- C17: in every state the goroutine can reach with its output channel of
capacity 0, the capacity `makeOutputChan` gives it: nothing is buffered; every
snapshot handed to `Send` so far has been taken by a consumer or is the one
being sent, in order, none dropped or overwritten; at most one snapshot is
outstanding; a step that receives a value from a source is taken only in the
waiting phase with no snapshot outstanding; and the goroutine goes from sending
back to waiting only by a consumer taking the snapshot it is sending. -/
theorem backpressure (I : GoType → GoType → Bool) (sources : List Source)
    (channel : RValue) (c : Conc) (hr : Reachable I sources channel 0 c) :
    c.buffer = [] ∧ c.produced = c.taken ++ c.outstanding ∧ c.outstanding.length ≤ 1
    ∧ (∀ c1, Step I sources channel 0 c c1 → c1.received ≠ c.received →
        c.phase = .waiting ∧ c.outstanding = [])
    ∧ (∀ c1 d, Step I sources channel 0 c c1 → c.phase = .sending d → c1.phase = .waiting →
        c1.taken = c.taken ++ [d]) := by
  obtain ⟨hb, hp, hl⟩ := backpressure_invariant I sources channel c hr
  refine ⟨hb, hp, hl, ?_, ?_⟩
  · intro c1 hstep hne
    cases hstep with
    | receive pick sel env1 st1 hph hsel hit =>
      exact ⟨hph, by simp [Conc.outstanding, hb, hph]⟩
    | enqueue d hph hlt => simp at hlt
    | handoff d hph hbuf => exact absurd rfl hne
    | consume d rest hbuf => exact absurd rfl hne
    | produce env1 => exact absurd rfl hne
  · intro c1 d hstep hs hw
    cases hstep with
    | receive pick sel env1 st1 hph hsel hit => rw [hph] at hs; cases hs
    | enqueue d1 hph hlt => simp at hlt
    | handoff d1 hph hbuf =>
      rw [hph] at hs
      injection hs with hs
      subst hs
      rfl
    | consume d1 rest hbuf => rw [hb] at hbuf; cases hbuf
    | produce env1 =>
      simp only at hw
      rw [hs] at hw
      cases hw

/-- The state reached when the name update for 123 has been received: the
goroutine is sending `{Anne,23}`. -/
theorem backpressure_witness :
    (Conc.mk (peopleHeap.store 1 (person "Anne" 23)) (readyEnv.set 1 ⟨[], false⟩)
        (.sending (person "Anne" 23)) [] [] [person "Anne" 23] 1).outstanding.length ≤ 1 :=
  (backpressure testImplements testSources testChannel
    (Conc.mk (peopleHeap.store 1 (person "Anne" 23)) (readyEnv.set 1 ⟨[], false⟩)
        (.sending (person "Anne" 23)) [] [] [person "Anne" 23] 1)
    (Reachable.step _ _ (Reachable.start peopleHeap readyEnv)
      (Step.receive ⟨peopleHeap, readyEnv, .waiting, [], [], [], 0⟩ 0
        ⟨0, .direct ⟨NameUpdate, .data (.record [.int 123, .str "Anne"])⟩, true⟩
        (readyEnv.set 1 ⟨[], false⟩)
        ⟨peopleHeap.store 1 (person "Anne" 23), [person "Anne" 23]⟩ rfl rfl rfl))).2.2.1

/-- C18: for an output and sources `Validate` accepts, the model of every
source has kind pointer or function, so `getTarget` never takes its last
branch, the "Wrong kind of model" panic. For a pointer model it returns that
pointer with found = true, for every value and memory. For a function model a
panic can only be the one the call of the function raised, and when the call
returns the results `r0` and the boolean `b`, `getTarget` returns `r0` with
found = true when `b` is true, and found = false when `b` is false. -/
theorem getTarget_after_Validate (I : GoType → GoType → Bool) (output : Iface)
    (sources : List Source) (src : Source)
    (hv : Validate I output sources = .ok none) (hmem : src ∈ sources) :
    ((ValueOf src.Model).Kind = .Ptr ∨ (ValueOf src.Model).Kind = .Func)
    ∧ ((ValueOf src.Model).Kind = .Ptr → ∀ (update : RValue) (h : Heap),
        src.getTarget I update h = .ok ((ValueOf src.Model, true), h))
    ∧ ((ValueOf src.Model).Kind = .Func → ∀ (update : RValue) (h : Heap),
        (∀ p, (ValueOf src.Model).Call I [update] h = .error p →
          src.getTarget I update h = .error p)
        ∧ (∀ (r0 : RValue) (b : Bool) (h1 : Heap),
          (ValueOf src.Model).Call I [update] h
            = .ok ([r0, .direct ⟨.bool, .data (.bool b)⟩], h1) →
          src.getTarget I update h = .ok ((if b then r0 else .zero, b), h1))) := by
  obtain ⟨M, _, hvs⟩ := Validate_accepts_inv I output sources none hv rfl
  have hacc := validateSources_ok_all I M sources hvs src hmem
  refine ⟨validateSource_ok_kind I M src hacc, ?_, ?_⟩
  · intro hp update h
    simp [Source.getTarget, hp, pure, Except.pure]
  · intro hf update h
    have hnp : (ValueOf src.Model).Kind ≠ .Ptr := by rw [hf]; decide
    constructor
    · intro p hc
      simp [Source.getTarget, hnp, hf, hc, bind, Except.bind]
    · intro r0 b h1 hc
      cases b <;>
        simp [Source.getTarget, hnp, hf, hc, RValue.assertBool, bind, Except.bind, pure,
          Except.pure]

/-- The lookup of id 456 through the first source of the test. -/
theorem getTarget_after_Validate_witness :
    Source.getTarget testImplements
        ⟨chanOf NameUpdate 1, some ⟨ApplyNameUpdateType, .fn ApplyNameUpdate⟩,
          some ⟨ByIdType, .fn (ById testPeople)⟩⟩
        (.direct ⟨NameUpdate, .data (.record [.int 456, .str "Rob"])⟩) peopleHeap
      = .ok ((.direct ⟨.ptr Person, .data (.ptr 2)⟩, true), peopleHeap) :=
  ((getTarget_after_Validate testImplements testOutput testSources
      ⟨chanOf NameUpdate 1, some ⟨ApplyNameUpdateType, .fn ApplyNameUpdate⟩,
        some ⟨ByIdType, .fn (ById testPeople)⟩⟩
      (by decide) (by simp [testSources])).2.2 rfl
    (.direct ⟨NameUpdate, .data (.record [.int 456, .str "Rob"])⟩) peopleHeap).2
    (.direct ⟨.ptr Person, .data (.ptr 2)⟩) true peopleHeap rfl

/-- C19: `buildCases` returns as many cases as there are sources, the case at
each index being a receive case on the `Input` of the source at that index;
hence whenever the wait of the goroutine returns, the index chosen is a valid
index into the sources, the value was taken from the `Input` channel of the
source at that index (or that channel is closed), and the body of the loop
works on that source alone: it is the pass over the one-source list. -/
theorem buildCases_dispatch (I : GoType → GoType → Bool) (sources : List Source)
    (channel : RValue) :
    (buildCases sources).length = sources.length
    ∧ (∀ i : Nat, (buildCases sources)[i]?
        = (sources[i]?).map
          (fun src => (⟨.SelectRecv, ValueOf src.Input, .zero⟩ : SelectCase)))
    ∧ (∀ (env env1 : ChanEnv) (pick : Nat) (sel : Selected),
        Select (buildCases sources) env pick = .ok (sel, env1) →
        sel.chosen < sources.length
        ∧ ∃ src t id E, sources[sel.chosen]? = some src
          ∧ src.Input = some ⟨t, .data (.chan id)⟩ ∧ t.elem? = some E
          ∧ ((∃ v q, (env id).queue = v :: q ∧ sel.recv = .direct ⟨E, .data v⟩
                ∧ sel.recvOK = true ∧ env1 = env.set id ⟨q, (env id).closed⟩)
              ∨ ((env id).queue = [] ∧ (env id).closed = true ∧ sel.recvOK = false
                ∧ env1 = env))
          ∧ ∀ st : DState, iteration I sources channel st sel
              = iteration I [src] channel st { sel with chosen := 0 }) := by
  refine ⟨by simp [buildCases_eq_map], fun i => by simp [buildCases_eq_map], ?_⟩
  intro env env1 pick sel hs
  obtain ⟨src, t, id, E, hsrc, hin, he, hcase⟩ := Select_recv_inv sources env env1 pick sel hs
  have hch : sel.chosen = pick := by
    rcases hcase with ⟨v, q, _, h, _⟩ | ⟨_, _, h, _⟩ <;> rw [h]
  rw [hch]
  refine ⟨?_, src, t, id, E, hsrc, hin, he, ?_, ?_⟩
  · exact (List.getElem?_eq_some.mp hsrc).1
  · rcases hcase with ⟨v, q, hq, h, h1⟩ | ⟨hq, hc, h, h1⟩
    · exact Or.inl ⟨v, q, hq, by rw [h], by rw [h], h1⟩
    · exact Or.inr ⟨hq, hc, by rw [h], h1⟩
  · intro st
    simp [iteration, hch, hsrc]

/-- The wait over the sources of the test with a name update ready on `names`. -/
theorem buildCases_dispatch_witness :
    Select (buildCases testSources) readyEnv 0
      = .ok (⟨0, .direct ⟨NameUpdate, .data (.record [.int 123, .str "Anne"])⟩, true⟩,
          readyEnv.set 1 ⟨[], false⟩)
    ∧ (0 : Nat) < testSources.length := by
  have hs : Select (buildCases testSources) readyEnv 0
      = .ok (⟨0, .direct ⟨NameUpdate, .data (.record [.int 123, .str "Anne"])⟩, true⟩,
          readyEnv.set 1 ⟨[], false⟩) := rfl
  exact ⟨hs, ((buildCases_dispatch testImplements testSources testChannel).2.2 _ _ _ _ hs).1⟩

end Junction
